import Mathlib

/-!
Shallow embedding of the Spark Docs DOCX-to-HTML converter (`convert.py`).

Python strings are modelled as `List Char`.  Fallible code (Python code that
can raise `IndexError`) returns `Option`; `none` models a raised exception.
The tolerant metadata extractors (`get_cell_fill`, `get_run_color`,
`get_para_shading`) read a raw optional attribute value: `none` models any
structural-access failure (the `try/except` path as well as a missing
`w:fill` / `w:val` attribute).
-/

namespace SparkConvert

/-- Python `\s` / `str.strip` whitespace over ASCII: space, tab, newline,
carriage return, vertical tab, form feed. -/
def pyIsSpace (c : Char) : Bool :=
  c == ' ' || c == '\t' || c == '\n' || c == '\r' || c == '\x0b' || c == '\x0c'

/-- Python `str.strip()`: drop leading and trailing whitespace. -/
def pyStrip (s : List Char) : List Char :=
  List.reverse (List.dropWhile pyIsSpace (List.reverse (List.dropWhile pyIsSpace s)))

/-- ASCII uppercase of one character, as Python `str.upper()` acts on ASCII. -/
def pyUpperChar : Char → Char
  | 'a' => 'A' | 'b' => 'B' | 'c' => 'C' | 'd' => 'D' | 'e' => 'E' | 'f' => 'F'
  | 'g' => 'G' | 'h' => 'H' | 'i' => 'I' | 'j' => 'J' | 'k' => 'K' | 'l' => 'L'
  | 'm' => 'M' | 'n' => 'N' | 'o' => 'O' | 'p' => 'P' | 'q' => 'Q' | 'r' => 'R'
  | 's' => 'S' | 't' => 'T' | 'u' => 'U' | 'v' => 'V' | 'w' => 'W' | 'x' => 'X'
  | 'y' => 'Y' | 'z' => 'Z'
  | c => c

/-- ASCII lowercase of one character, as Python `str.lower()` acts on ASCII. -/
def pyLowerChar : Char → Char
  | 'A' => 'a' | 'B' => 'b' | 'C' => 'c' | 'D' => 'd' | 'E' => 'e' | 'F' => 'f'
  | 'G' => 'g' | 'H' => 'h' | 'I' => 'i' | 'J' => 'j' | 'K' => 'k' | 'L' => 'l'
  | 'M' => 'm' | 'N' => 'n' | 'O' => 'o' | 'P' => 'p' | 'Q' => 'q' | 'R' => 'r'
  | 'S' => 's' | 'T' => 't' | 'U' => 'u' | 'V' => 'v' | 'W' => 'w' | 'X' => 'x'
  | 'Y' => 'y' | 'Z' => 'z'
  | c => c

/-- Python `str.upper()`. -/
def toUpperS (s : List Char) : List Char := s.map pyUpperChar

/-- Python `str.lower()`. -/
def toLowerS (s : List Char) : List Char := s.map pyLowerChar

/-- `html.escape` on one character (quote=True default: `&`, `<`, `>`, `"`, `'`). -/
def escapeChar (c : Char) : List Char :=
  if c = '&' then "&amp;".data
  else if c = '<' then "&lt;".data
  else if c = '>' then "&gt;".data
  else if c = '"' then "&quot;".data
  else if c = '\'' then "&#x27;".data
  else [c]

/-- Python `html.escape`. -/
def escapeHtml (s : List Char) : List Char := (s.map escapeChar).flatten

/-- Fuel-driven decimal digit expansion (the fuel only bounds recursion
depth; `natChars` always supplies enough). -/
def natCharsAux : Nat → Nat → List Char
  | 0, _ => []
  | fuel + 1, n =>
    if n < 10 then [Nat.digitChar n]
    else natCharsAux fuel (n / 10) ++ [Nat.digitChar (n % 10)]

/-- Decimal digit characters of a natural number, as Python `str(n)`. -/
def natChars (n : Nat) : List Char := natCharsAux (n + 1) n

/-! ## Data model (read-only view over the docx object model) -/

/-- A text run: literal text, bold/italic flags (tri-state unset collapsed to
`false`, as Python truthiness does), and the raw `w:val` font-color attribute
(`none` = missing substructure or attribute). -/
structure Run where
  text : List Char
  bold : Bool
  italic : Bool
  color_raw : Option (List Char)
  deriving DecidableEq

/-- A body paragraph: runs, the resolved style name (`""` when absent or when
style access fails), and the raw `w:fill` paragraph-shading attribute. -/
structure Paragraph where
  runs : List Run
  style : List Char
  shd_raw : Option (List Char)
  deriving DecidableEq

/-- python-docx `paragraph.text`: concatenation of the run texts. -/
def Paragraph.text (p : Paragraph) : List Char := (p.runs.map Run.text).flatten

/-- A table cell: the texts of its paragraphs, and the raw `w:fill`
cell-shading attribute. -/
structure Cell where
  paragraphs : List (List Char)
  fill_raw : Option (List Char)
  deriving DecidableEq

/-- python-docx `cell.text`: paragraph texts joined with newlines. -/
def Cell.text (c : Cell) : List Char := List.intercalate ['\n'] c.paragraphs

/-- A table row: its cells (possibly fewer than the declared column count). -/
structure Row where
  cells : List Cell
  deriving DecidableEq

/-- A table: rows, and the declared column count (`len(table.columns)`). -/
structure Table where
  cols : Nat
  rows : List Row
  deriving DecidableEq

/-- A top-level body block, in document order. -/
inductive Block where
  | para (p : Paragraph)
  | tbl (t : Table)

/-! ## Color map and style extractors -/

/-- `COLOR_CLASS`: docx fill hex → CSS class. -/
def COLOR_CLASS : List (List Char × List Char) :=
  [("1E4D8C".data, "fill-navy".data),
   ("2E86C1".data, "fill-blue".data),
   ("1A7A4A".data, "fill-green".data),
   ("B7860B".data, "fill-gold".data),
   ("D6E4F0".data, "fill-sky".data),
   ("F4F6F8".data, "fill-lightgray".data),
   ("FEF9EC".data, "fill-goldtint-a".data),
   ("FFFDF4".data, "fill-goldtint-b".data),
   ("FFFFFF".data, "fill-white".data),
   ("1B2A4A".data, "fill-navy".data),
   ("C8E6C9".data, "fill-green-light".data),
   ("DCEDC8".data, "fill-green-pale".data),
   ("FFF9C4".data, "fill-yellow".data),
   ("FFCDD2".data, "fill-red-light".data),
   ("EDE7F6".data, "fill-purple-light".data),
   ("D6E4F7".data, "fill-sky".data),
   ("F2F7FF".data, "fill-sky-pale".data),
   ("EEF4FF".data, "fill-sky-pale".data),
   ("F9F9F9".data, "fill-lightgray".data)]

/-- Python `COLOR_CLASS.get(key, default)`. -/
def colorClassGet (key dflt : List Char) : List Char :=
  match List.lookup key COLOR_CLASS with
  | some v => v
  | none => dflt

/-- `get_cell_fill`: fill hex of a table cell, or absence. -/
def get_cell_fill (c : Cell) : Option (List Char) :=
  match c.fill_raw with
  | none => none
  | some fill =>
    if fill = [] ∨ toUpperS fill = "AUTO".data ∨ toUpperS fill = "NONE".data then none
    else some (toUpperS fill)

/-- `get_run_color`: font color hex of a run, or absence.  Note the source
filters only `'AUTO'` and `''` here (not `'NONE'`). -/
def get_run_color (r : Run) : Option (List Char) :=
  match r.color_raw with
  | none => none
  | some val =>
    if val = [] ∨ toUpperS val = "AUTO".data then none
    else some (toUpperS val)

/-- `get_para_shading`: background shading of a paragraph, or absence. -/
def get_para_shading (p : Paragraph) : Option (List Char) :=
  match p.shd_raw with
  | none => none
  | some fill =>
    if fill = [] ∨ toUpperS fill = "AUTO".data ∨ toUpperS fill = "NONE".data then none
    else some (toUpperS fill)

/-! ## Run renderer -/

/-- Font colors suppressed by `runs_to_html` (no color styling emitted). -/
def SUPPRESS_COLORS : List (List Char) :=
  ["000000".data, "1A1A2E".data, "333333".data, "FFFFFF".data, "WHITE".data]

/-- The known-color → CSS-variable map inside `runs_to_html`. -/
def RUN_COLOR_MAP : List (List Char × List Char) :=
  [("2E86C1".data, "var(--blue)".data),
   ("1E4D8C".data, "var(--navy)".data),
   ("1A7A4A".data, "var(--green)".data),
   ("B7860B".data, "var(--gold)".data),
   ("C8960C".data, "var(--gold)".data),
   ("888888".data, "var(--mid)".data),
   ("555555".data, "var(--mid)".data),
   ("6B7A8D".data, "var(--mid)".data)]

/-- The inline CSS color string for a run color: `#<hex lowercased>`, or the
CSS variable for known colors. -/
def cssColorOf (color : List Char) : List Char :=
  match List.lookup color RUN_COLOR_MAP with
  | some v => v
  | none => '#' :: toLowerS color

/-- One iteration of the `runs_to_html` loop: the part contributed by one run
(`[]` when the run is skipped). -/
def renderRun (r : Run) : List Char :=
  let text := escapeHtml r.text
  if text = [] then []
  else
    let text := if r.bold then "<strong>".data ++ text ++ "</strong>".data else text
    let text := if r.italic then "<em>".data ++ text ++ "</em>".data else text
    match get_run_color r with
    | none => text
    | some color =>
      if color ∈ SUPPRESS_COLORS then text
      else "<span style=\"color:".data ++ cssColorOf color ++ "\">".data
            ++ text ++ "</span>".data

/-- `runs_to_html`: all run parts joined. -/
def runs_to_html (p : Paragraph) : List Char := (p.runs.map renderRun).flatten

/-! ## Table classifier -/

/-- `classify_table`.  `none` models the `IndexError` raised by
`rows[0].cells[0]` when the first row has no cells. -/
def classify_table (t : Table) : Option (List Char) :=
  match t.rows with
  | [] => some "generic".data
  | r0 :: _ =>
    match r0.cells with
    | [] => none
    | c0 :: _ =>
      let cols := t.cols
      let nrows := t.rows.length
      match get_cell_fill c0 with
      | none => some "generic".data
      | some first_fill =>
        let f := toUpperS first_fill
        some (
          if nrows = 1 ∧ cols = 2 ∧ f ∈ ["2E86C1".data] then
            "school-name-bar".data
          else if nrows = 1 ∧ cols = 1 ∧
              f ∈ ["1E4D8C".data, "2E86C1".data, "1A7A4A".data, "B7860B".data, "1B2A4A".data] then
            "section-label".data
          else if nrows = 1 ∧ cols = 2 ∧ f ∈ ["1A7A4A".data] then
            "got-right-header".data
          else if cols = 2 ∧ nrows > 1 ∧ f ∈ ["FFFFFF".data, "F4F6F8".data] then
            "two-col-content".data
          else if cols = 1 ∧ nrows ≥ 1 ∧ f ∈ ["FEF9EC".data, "FFFDF4".data] then
            "takeaway-box".data
          else if cols = 2 ∧ f ∈ ["D6E4F0".data, "D6E4F7".data] then
            "info-grid".data
          else if cols = 1 ∧ f ∈ ["1E4D8C".data, "1B2A4A".data] then
            "principle-header".data
          else if f ∈ ["1B2A4A".data] ∧ cols ≥ 3 then
            "score-table".data
          else if nrows = 1 ∧ cols ≥ 4 ∧ f ∈ ["C8E6C9".data] then
            "score-legend".data
          else "generic".data)

/-! ## Table renderer -/

/-- `re.sub(r'^\d+\.\s+', '', s)`: strip a leading digits-dot-whitespace
pattern if present. -/
def takeawayStrip (s : List Char) : List Char :=
  let ds := s.takeWhile Char.isDigit
  let rest := s.dropWhile Char.isDigit
  if ds = [] then s
  else
    match rest with
    | '.' :: rest2 =>
      if rest2.takeWhile pyIsSpace = [] then s
      else rest2.dropWhile pyIsSpace
    | _ => s

/-- `re.match(r'(Principle \d+:)\s+(.*)', text)`: on success, the pair
(group 1, group 2); `.` stops at a newline. -/
def principleMatch (s : List Char) : Option (List Char × List Char) :=
  let pre := "Principle ".data
  if pre.isPrefixOf s then
    let rest := s.drop pre.length
    let ds := rest.takeWhile Char.isDigit
    let rest2 := rest.dropWhile Char.isDigit
    if ds = [] then none
    else
      match rest2 with
      | ':' :: rest3 =>
        if rest3.takeWhile pyIsSpace = [] then none
        else
          some (pre ++ ds ++ [':'],
                (rest3.dropWhile pyIsSpace).takeWhile (fun c => c ≠ '\n'))
      | _ => none
  else none

/-- One `two-col-content` row, given its enumerate index; `none` models the
`IndexError` on a row with fewer than two cells. -/
def twoColRowHtml (i : Nat) (r : Row) : Option (List Char) :=
  match r.cells with
  | c0 :: c1 :: _ =>
    let left := pyStrip c0.text
    let right := pyStrip c1.text
    let cls := if i % 2 = 1 then "row-alt".data else []
    some (if left ≠ [] ∨ right ≠ [] then
      "<div class=\"two-col-row ".data ++ cls ++ "\">".data
        ++ "<div class=\"two-col-cell\">".data ++ escapeHtml left ++ "</div>".data
        ++ "<div class=\"two-col-cell\">".data ++ escapeHtml right ++ "</div>".data
        ++ "</div>".data
    else [])
  | _ => none

/-- The `two-col-content` row loop from index `i`. -/
def twoColRows (i : Nat) : List Row → Option (List (List Char))
  | [] => some []
  | r :: rs =>
    match twoColRowHtml i r, twoColRows (i + 1) rs with
    | some h, some hs => some (h :: hs)
    | _, _ => none

/-- One `takeaway-box` item for source row index `i` and stripped text. -/
def takeawayItemHtml (i : Nat) (text : List Char) : List Char :=
  "<div class=\"takeaway-item\">".data
    ++ "<span class=\"takeaway-num\">".data ++ natChars (i + 1) ++ "</span>".data
    ++ "<span class=\"takeaway-text\">".data ++ escapeHtml text ++ "</span>".data
    ++ "</div>".data

/-- One `takeaway-box` row, given its enumerate index; `none` models the
`IndexError` on a row with no cells. -/
def takeawayRowHtml (i : Nat) (r : Row) : Option (List Char) :=
  match r.cells with
  | c0 :: _ =>
    let text := pyStrip c0.text
    some (if text ≠ [] then takeawayItemHtml i (takeawayStrip text) else [])
  | [] => none

/-- The `takeaway-box` row loop from index `i`. -/
def takeawayRows (i : Nat) : List Row → Option (List (List Char))
  | [] => some []
  | r :: rs =>
    match takeawayRowHtml i r, takeawayRows (i + 1) rs with
    | some h, some hs => some (h :: hs)
    | _, _ => none

/-- One `info-grid` cell. -/
def infoCellHtml (c : Cell) : List Char :=
  let fill := get_cell_fill c
  let css := colorClassGet (toUpperS ((fill).getD "FFFFFF".data)) "fill-white".data
  let lines := (c.paragraphs.map pyStrip).filter (fun l => l ≠ [])
  let content := List.intercalate "<br>".data (lines.map escapeHtml)
  "<div class=\"info-cell ".data ++ css ++ "\">".data ++ content ++ "</div>".data

/-- One `info-grid` row. -/
def infoRowHtml (r : Row) : List Char :=
  "<div class=\"info-row\">".data ++ (r.cells.map infoCellHtml).flatten ++ "</div>".data

/-- One `score-table` / generic-table cell: `th` in row 0, `td` otherwise. -/
def scoreCellHtml (i : Nat) (c : Cell) : List Char :=
  let fill := get_cell_fill c
  let css := colorClassGet (toUpperS ((fill).getD "FFFFFF".data)) []
  let txt := escapeHtml (pyStrip c.text)
  let tag := if i = 0 then "th".data else "td".data
  "<".data ++ tag ++ " class=\"".data ++ css ++ "\">".data ++ txt
    ++ "</".data ++ tag ++ ">".data

/-- One `score-table` / generic-table row. -/
def scoreRowHtml (i : Nat) (r : Row) : List Char :=
  "<tr>".data ++ (r.cells.map (scoreCellHtml i)).flatten ++ "</tr>".data

/-- The `score-table` / generic row loop from index `i`. -/
def scoreRows (i : Nat) : List Row → List (List Char)
  | [] => []
  | r :: rs => scoreRowHtml i r :: scoreRows (i + 1) rs

/-- One `score-legend` cell. -/
def legendCellHtml (c : Cell) : List Char :=
  let fill := get_cell_fill c
  let css := colorClassGet (toUpperS ((fill).getD "FFFFFF".data)) []
  let txt := escapeHtml (pyStrip c.text)
  "<div class=\"legend-cell ".data ++ css ++ "\">".data ++ txt ++ "</div>".data

/-- `table_to_html`.  `none` models a raised `IndexError` (from the classifier
or from positional cell indexing inside a role's renderer). -/
def table_to_html (t : Table) : Option (List Char) :=
  match classify_table t with
  | none => none
  | some role =>
    if role = "school-name-bar".data then
      match t.rows with
      | r0 :: _ =>
        match r0.cells with
        | c0 :: c1 :: _ =>
          some ("<div class=\"school-name-bar\"><span class=\"school-name\">".data
            ++ escapeHtml (pyStrip c0.text)
            ++ "</span><span class=\"school-loc\">".data
            ++ escapeHtml (pyStrip c1.text)
            ++ "</span></div>".data)
        | _ => none
      | [] => none
    else if role = "section-label".data then
      match t.rows with
      | r0 :: _ =>
        match r0.cells with
        | c0 :: _ =>
          let fill := (get_cell_fill c0).getD "1E4D8C".data
          let css := colorClassGet (toUpperS fill) "fill-navy".data
          some ("<div class=\"section-label ".data ++ css ++ "\">".data
            ++ escapeHtml (pyStrip c0.text) ++ "</div>".data)
        | _ => none
      | [] => none
    else if role = "got-right-header".data then
      some "<div class=\"got-right-header\">What This Site Does Well</div>".data
    else if role = "two-col-content".data then
      match twoColRows 0 t.rows with
      | some hs => some ("<div class=\"two-col-table\">".data ++ hs.flatten ++ "</div>".data)
      | none => none
    else if role = "takeaway-box".data then
      match takeawayRows 0 t.rows with
      | some hs => some ("<div class=\"takeaway-box\">".data ++ hs.flatten ++ "</div>".data)
      | none => none
    else if role = "info-grid".data then
      some ("<div class=\"info-grid\">".data ++ (t.rows.map infoRowHtml).flatten
        ++ "</div>".data)
    else if role = "principle-header".data then
      match t.rows with
      | r0 :: _ =>
        match r0.cells with
        | c0 :: _ =>
          let text := pyStrip c0.text
          some (match principleMatch text with
            | some (label, title) =>
              "<div class=\"principle-header\"><span class=\"principle-label\">".data
                ++ escapeHtml label ++ "</span> ".data ++ escapeHtml title
                ++ "</div>".data
            | none =>
              "<div class=\"principle-header\">".data ++ escapeHtml text
                ++ "</div>".data)
        | _ => none
      | [] => none
    else if role = "score-table".data then
      some ("<div class=\"table-wrap\"><table class=\"score-table\">".data
        ++ (scoreRows 0 t.rows).flatten ++ "</table></div>".data)
    else if role = "score-legend".data then
      match t.rows with
      | r0 :: _ =>
        some ("<div class=\"score-legend\">".data
          ++ (r0.cells.map legendCellHtml).flatten ++ "</div>".data)
      | [] => none
    else
      some ("<div class=\"table-wrap\"><table>".data
        ++ (scoreRows 0 t.rows).flatten ++ "</table></div>".data)

/-! ## Paragraph renderer -/

/-- The five "strong" shading colors that trigger a shaded-block paragraph. -/
def STRONG_FILLS : List (List Char) :=
  ["1E4D8C".data, "2E86C1".data, "1A7A4A".data, "B7860B".data, "1B2A4A".data]

/-- `para_to_html`.  `none` is the skip outcome for blank paragraphs. -/
def para_to_html (p : Paragraph) : Option (List Char) :=
  let text := pyStrip p.text
  if text = [] then none
  else
    let fill := get_para_shading p
    let r := runs_to_html p
    let inner := if r = [] then escapeHtml text else r
    if p.style = "Heading 1".data then
      some ("<h1>".data ++ inner ++ "</h1>".data)
    else if p.style = "Heading 2".data then
      some ("<h2>".data ++ inner ++ "</h2>".data)
    else if p.style = "Heading 3".data then
      some ("<h3>".data ++ inner ++ "</h3>".data)
    else if p.style = "List Paragraph".data then
      some ("<li>".data ++ inner ++ "</li>".data)
    else
      match fill with
      | some fl =>
        if toUpperS fl ∈ STRONG_FILLS then
          some ("<div class=\"shaded-para ".data
            ++ colorClassGet (toUpperS fl) "fill-navy".data ++ "\">".data
            ++ inner ++ "</div>".data)
        else some ("<p>".data ++ inner ++ "</p>".data)
      | none => some ("<p>".data ++ inner ++ "</p>".data)

/-! ## Document walker -/

/-- `result.startswith('<li>')`: list-item fragment test used by the walker. -/
def isLiFrag (s : List Char) : Bool := "<li>".data.isPrefixOf s

/-- The walker loop of `doc_to_html_body`, carrying the `in_list` flag.  The
output is the list of appended HTML parts (the source joins them with
newlines); `none` models a raised exception while rendering a table. -/
def walkAux : List Block → Bool → Option (List (List Char))
  | [], inList => some (if inList then ["</ul>".data] else [])
  | Block.para p :: rest, inList =>
    match para_to_html p with
    | none =>
      if inList then
        (walkAux rest false).map (fun parts => "</ul>".data :: parts)
      else walkAux rest false
    | some s =>
      if isLiFrag s then
        if inList then (walkAux rest true).map (fun parts => s :: parts)
        else (walkAux rest true).map (fun parts => "<ul>".data :: s :: parts)
      else
        if inList then
          (walkAux rest false).map (fun parts => "</ul>".data :: s :: parts)
        else (walkAux rest false).map (fun parts => s :: parts)
  | Block.tbl t :: rest, inList =>
    match table_to_html t with
    | none => none
    | some s =>
      if inList then
        (walkAux rest false).map (fun parts => "</ul>".data :: s :: parts)
      else (walkAux rest false).map (fun parts => s :: parts)

/-- `doc_to_html_body` restricted to its core: the walker over the body
blocks, starting outside a list. -/
def doc_to_html_body (blocks : List Block) : Option (List (List Char)) :=
  walkAux blocks false

/-! ## Specification-side definitions

These follow the spec's words (not the source) and are compared with the
embedded source functions in refinement theorems. -/

/-- The per-block rendering outcome, as the spec's walker description uses it:
a list-item fragment, another fragment, a skipped blank paragraph, or a
rendering error. -/
inductive Outcome where
  | li (s : List Char)
  | other (s : List Char)
  | skip
  | err

/-- The outcome of rendering one block. -/
def outcomeOf : Block → Outcome
  | Block.para p =>
    match para_to_html p with
    | none => Outcome.skip
    | some s => if isLiFrag s then Outcome.li s else Outcome.other s
  | Block.tbl t =>
    match table_to_html t with
    | none => Outcome.err
    | some s => Outcome.other s

/-- Whether an outcome is a list-item fragment. -/
def isLiOutcome : Outcome → Bool
  | Outcome.li _ => true
  | _ => false

/-- The fragment carried by a list-item outcome. -/
def liText : Outcome → List Char
  | Outcome.li s => s
  | _ => []

/-- The fragments of a run of list-item outcomes. -/
def liTexts (os : List Outcome) : List (List Char) := os.map liText

/-- Spec-side reference walker: each maximal run of consecutive list-item
outcomes is wrapped in exactly one list container; skipped paragraphs emit
nothing; any other fragment is emitted as-is; an error aborts. -/
def refGroup : List Outcome → Option (List (List Char))
  | [] => some []
  | Outcome.err :: _ => none
  | Outcome.skip :: rest => refGroup rest
  | Outcome.other s :: rest => (refGroup rest).map (fun parts => s :: parts)
  | Outcome.li s :: rest =>
    (refGroup (rest.dropWhile isLiOutcome)).map
      (fun parts =>
        "<ul>".data :: s :: (liTexts (rest.takeWhile isLiOutcome)
          ++ "</ul>".data :: parts))
  termination_by os => os.length
  decreasing_by
    all_goals simp only [List.length_cons]
    all_goals first
      | omega
      | exact Nat.lt_succ_of_le (List.Sublist.length_le (List.dropWhile_sublist isLiOutcome))

/-- Well-formedness of the walker's part list: list-open and list-close
markers are balanced and matched, only list-item fragments stand between
them, and no other emitted part is itself a marker. -/
inductive Grouped : List (List Char) → Prop where
  | nil : Grouped []
  | other : ∀ (s : List Char) (rest : List (List Char)),
      isLiFrag s = false → s ≠ "<ul>".data → s ≠ "</ul>".data →
      Grouped rest → Grouped (s :: rest)
  | group : ∀ (items rest : List (List Char)),
      items ≠ [] → (∀ s ∈ items, isLiFrag s = true) →
      Grouped rest → Grouped ("<ul>".data :: items ++ "</ul>".data :: rest)

/-- Ordered rule list of the table classifier, as the spec's §4.4 states the
rules (spec rules 3–11; rules 1–2 and 12 are the surrounding defaults). -/
def specRules : List ((Nat → Nat → List Char → Bool) × List Char) :=
  [(fun nrows cols f => decide (nrows = 1 ∧ cols = 2 ∧ f ∈ ["2E86C1".data]),
    "school-name-bar".data),
   (fun nrows cols f => decide (nrows = 1 ∧ cols = 1 ∧
      f ∈ ["1E4D8C".data, "2E86C1".data, "1A7A4A".data, "B7860B".data, "1B2A4A".data]),
    "section-label".data),
   (fun nrows cols f => decide (nrows = 1 ∧ cols = 2 ∧ f ∈ ["1A7A4A".data]),
    "got-right-header".data),
   (fun nrows cols f => decide (cols = 2 ∧ nrows > 1 ∧ f ∈ ["FFFFFF".data, "F4F6F8".data]),
    "two-col-content".data),
   (fun nrows cols f => decide (cols = 1 ∧ nrows ≥ 1 ∧ f ∈ ["FEF9EC".data, "FFFDF4".data]),
    "takeaway-box".data),
   (fun _nrows cols f => decide (cols = 2 ∧ f ∈ ["D6E4F0".data, "D6E4F7".data]),
    "info-grid".data),
   (fun _nrows cols f => decide (cols = 1 ∧ f ∈ ["1E4D8C".data, "1B2A4A".data]),
    "principle-header".data),
   (fun _nrows cols f => decide (f ∈ ["1B2A4A".data] ∧ cols ≥ 3),
    "score-table".data),
   (fun nrows cols f => decide (nrows = 1 ∧ cols ≥ 4 ∧ f ∈ ["C8E6C9".data]),
    "score-legend".data)]

/-- First-match evaluation of an ordered rule list; `generic` when no rule
matches. -/
def firstMatchRole :
    List ((Nat → Nat → List Char → Bool) × List Char) → Nat → Nat → List Char → List Char
  | [], _, _, _ => "generic".data
  | pr :: rest, nrows, cols, f =>
    if pr.1 nrows cols f then pr.2 else firstMatchRole rest nrows cols f

/-- Map with a running index (used to state numbering properties). -/
def mapIdx (f : Nat → α → β) : Nat → List α → List β
  | _, [] => []
  | i, x :: xs => f i x :: mapIdx f (i + 1) xs

/-- The takeaway item generated from the row at source index `i` (empty for a
row whose first cell is blank); the displayed number is `i + 1`. -/
def specTakeawayItemAt (i : Nat) (r : Row) : List Char :=
  match r.cells with
  | c :: _ =>
    if pyStrip c.text ≠ [] then takeawayItemHtml i (takeawayStrip (pyStrip c.text))
    else []
  | [] => []

/-- The takeaway fragment the claim predicts: items renumbered 1-based by
render position (dropped rows leave no gaps). -/
def claimTakeawayHtml (rows : List Row) : List Char :=
  let texts := rows.filterMap (fun r =>
    match r.cells with
    | c :: _ =>
      let txt := pyStrip c.text
      if txt = [] then none else some (takeawayStrip txt)
    | [] => none)
  "<div class=\"takeaway-box\">".data
    ++ (mapIdx takeawayItemHtml 0 texts).flatten ++ "</div>".data

/-- Bold wrapping as the spec states it (innermost). -/
def specBoldWrap (b : Bool) (s : List Char) : List Char :=
  if b then "<strong>".data ++ s ++ "</strong>".data else s

/-- Italic wrapping as the spec states it (outside bold). -/
def specItalicWrap (b : Bool) (s : List Char) : List Char :=
  if b then "<em>".data ++ s ++ "</em>".data else s

/-- Colored-span wrapping as the spec states it (outermost, only for a
present, non-suppressed color). -/
def specColorWrap (r : Run) (s : List Char) : List Char :=
  match get_run_color r with
  | none => s
  | some color =>
    if color ∈ SUPPRESS_COLORS then s
    else "<span style=\"color:".data ++ cssColorOf color ++ "\">".data
      ++ s ++ "</span>".data

/-- The inline content of a paragraph: the run renderer's output, or the
escaped plain text when all runs are empty. -/
def innerOf (p : Paragraph) : List Char :=
  if runs_to_html p = [] then escapeHtml (pyStrip p.text) else runs_to_html p

/-- A string free of raw markup-significant characters. -/
def noMark (s : List Char) : Prop := ∀ c ∈ s, c ≠ '<' ∧ c ≠ '&' ∧ c ≠ '"'

/-- The entity bodies that may follow an ampersand in escaped output. -/
def ampEntities : List (List Char) :=
  ["amp;".data, "lt;".data, "gt;".data, "quot;".data, "#x27;".data]

/-- Every ampersand in the string starts one of the five escape entities. -/
def ampOkB : List Char → Bool
  | [] => true
  | c :: rest =>
    (!(c == '&') || ampEntities.any (fun e => e.isPrefixOf rest)) && ampOkB rest

/-- Every fixed markup literal emitted by the renderers. -/
def templateChunks : List (List Char) :=
  ["<div class=\"school-name-bar\"><span class=\"school-name\">".data,
   "</span><span class=\"school-loc\">".data,
   "</span></div>".data,
   "<div class=\"section-label ".data,
   "\">".data,
   "</div>".data,
   "<div class=\"got-right-header\">What This Site Does Well</div>".data,
   "<div class=\"two-col-table\">".data,
   "<div class=\"two-col-row ".data,
   "<div class=\"two-col-cell\">".data,
   "<div class=\"takeaway-box\">".data,
   "<div class=\"takeaway-item\">".data,
   "<span class=\"takeaway-num\">".data,
   "</span>".data,
   "<span class=\"takeaway-text\">".data,
   "<div class=\"info-grid\">".data,
   "<div class=\"info-row\">".data,
   "<div class=\"info-cell ".data,
   "<br>".data,
   "<div class=\"principle-header\"><span class=\"principle-label\">".data,
   "</span> ".data,
   "<div class=\"principle-header\">".data,
   "<div class=\"table-wrap\"><table class=\"score-table\">".data,
   "</table></div>".data,
   "<tr>".data,
   "</tr>".data,
   "<".data,
   " class=\"".data,
   "</".data,
   ">".data,
   "<div class=\"score-legend\">".data,
   "<div class=\"legend-cell ".data,
   "<div class=\"table-wrap\"><table>".data,
   "<h1>".data, "</h1>".data, "<h2>".data, "</h2>".data,
   "<h3>".data, "</h3>".data, "<li>".data, "</li>".data,
   "<div class=\"shaded-para ".data, "<p>".data, "</p>".data,
   "<strong>".data, "</strong>".data, "<em>".data, "</em>".data,
   "<span style=\"color:".data, "</span>".data]

/-- A fragment whose markup-significant characters all come from fixed
template literals: it is a concatenation of template chunks, markup-free
strings, and HTML-escaped content.  Content can therefore never inject a raw
markup-significant character. -/
inductive SafeFrag : List Char → Prop where
  | tmpl : ∀ s, s ∈ templateChunks → SafeFrag s
  | esc : ∀ t, SafeFrag (escapeHtml t)
  | safe : ∀ s, noMark s → SafeFrag s
  | app : ∀ a b, SafeFrag a → SafeFrag b → SafeFrag (a ++ b)

/-! ## Concrete inputs used by witnesses and counterexamples -/

/-- C2: a `school-name-bar`-classified table whose only row has one cell. -/
def tblShortRow : Table := ⟨2, [⟨[⟨["X".data], some "2E86C1".data⟩]⟩]⟩

/-- C2: a table whose first row has no cells at all. -/
def tblEmptyRow : Table := ⟨1, [⟨[]⟩]⟩

/-- C3: a takeaway table whose first row is blank and second row non-empty. -/
def tblGap : Table :=
  ⟨1, [⟨[⟨[[]], some "FEF9EC".data⟩]⟩, ⟨[⟨["Keep it simple".data], none⟩]⟩]⟩

/-- C3 (spec scenario): a single-row takeaway table with a numbered item. -/
def tblTakeaway1 : Table :=
  ⟨1, [⟨[⟨["1.  Keep it simple".data], some "FEF9EC".data⟩]⟩]⟩

/-- C4: a run whose raw font color attribute is `none` (the literal string). -/
def runNoneColor : Run := ⟨"x".data, false, false, some "none".data⟩

/-- C5: a 1×1 table with the alt-navy fill. -/
def tblAltNavy : Table := ⟨1, [⟨[⟨["Label".data], some "1B2A4A".data⟩]⟩]⟩

/-- C6 (spec scenario): bold italic colored run. -/
def runKeyPoint : Run := ⟨"Key point".data, true, true, some "2E86C1".data⟩

/-- C8 (spec scenario): the 1×2 school-name-bar table. -/
def tblSchoolBar : Table :=
  ⟨2, [⟨[⟨["Lincoln High".data], some "2E86C1".data⟩,
         ⟨["Springfield, IL".data], none⟩]⟩]⟩

/-- A list-item paragraph with the given single-run text. -/
def mkLiPara (s : List Char) : Paragraph :=
  ⟨[⟨s, false, false, none⟩], "List Paragraph".data, none⟩

/-- A plain paragraph with the given single-run text. -/
def mkPlainPara (s : List Char) : Paragraph :=
  ⟨[⟨s, false, false, none⟩], [], none⟩

/-- C1 witness input: three list paragraphs then a plain one. -/
def demoBlocks : List Block :=
  [Block.para (mkLiPara "a".data), Block.para (mkLiPara "b".data),
   Block.para (mkLiPara "c".data), Block.para (mkPlainPara "d".data)]

/-- The walker's parts on `demoBlocks`. -/
def demoParts : List (List Char) :=
  ["<ul>".data, "<li>a</li>".data, "<li>b</li>".data, "<li>c</li>".data,
   "</ul>".data, "<p>d</p>".data]

/-! ## Helper lemmas -/

theorem escapeChar_ne_nil (c : Char) : escapeChar c ≠ [] := by
  unfold escapeChar
  split_ifs <;> simp

theorem escapeHtml_eq_nil {s : List Char} : escapeHtml s = [] ↔ s = [] := by
  induction s with
  | nil => simp [escapeHtml]
  | cons c t ih =>
    simp only [escapeHtml, List.map_cons, List.flatten_cons, List.append_eq_nil]
    constructor
    · rintro ⟨h1, _⟩
      exact absurd h1 (escapeChar_ne_nil c)
    · intro h
      exact absurd h (by simp)

/-! ## Claim theorems -/

/-- Claim C8: the 1×2 table with first-cell fill `2E86C1`, texts
"Lincoln High" and "Springfield, IL", renders exactly the school-name-bar
markup string. -/
theorem claim8_school_name_bar_scenario :
  table_to_html tblSchoolBar =
    some "<div class=\"school-name-bar\"><span class=\"school-name\">Lincoln High</span><span class=\"school-loc\">Springfield, IL</span></div>".data := by
  decide

/-- Claim C5: the classifier returns `generic` for a table with no rows and
for a table whose first cell has no resolvable fill; when the fill resolves,
its result is the first-match evaluation of the spec's ordered rule list (so
rule order encodes precedence); and on a 1×1 table with alt-navy fill
(`1B2A4A`) the earlier `section-label` rule beats the later
`principle-header` rule. -/
theorem claim5_classifier_priority :
  (∀ t : Table, t.rows = [] → classify_table t = some "generic".data) ∧
  (∀ (t : Table) (r0 : Row) (rs : List Row) (c0 : Cell) (cs : List Cell),
     t.rows = r0 :: rs → r0.cells = c0 :: cs → get_cell_fill c0 = none →
     classify_table t = some "generic".data) ∧
  (∀ (t : Table) (r0 : Row) (rs : List Row) (c0 : Cell) (cs : List Cell)
     (f : List Char),
     t.rows = r0 :: rs → r0.cells = c0 :: cs → get_cell_fill c0 = some f →
     classify_table t =
       some (firstMatchRole specRules t.rows.length t.cols (toUpperS f))) ∧
  classify_table tblAltNavy = some "section-label".data := by
  refine ⟨?_, ?_, ?_, by decide⟩
  · intro t h
    simp only [classify_table, h]
  · intro t r0 rs c0 cs ht hc hf
    simp only [classify_table, ht, hc, hf]
  · intro t r0 rs c0 cs f ht hc hf
    simp only [classify_table, ht, hc, hf, firstMatchRole, specRules,
      decide_eq_true_eq]

/-- Claim C4 counterexample: the run-color extractor does not treat the raw
value `"none"` as absence — it returns it uppercased as a color. -/
theorem claim4_counterexample :
  get_run_color runNoneColor = some "NONE".data ∧
  get_run_color runNoneColor ≠ none := by
  constructor
  · decide
  · decide

/-- Claim C4 (amended): the cell-fill and paragraph-shading extractors treat
`AUTO`, `NONE` and the empty string (case-insensitively) as absence, and any
structural-access failure as absence; the run-color extractor does the same
only for `AUTO` and the empty string, and passes `NONE` through as a color;
every returned value is the uppercased raw value. -/
theorem claim4_extractors_amended :
  (∀ c : Cell, c.fill_raw = none → get_cell_fill c = none) ∧
  (∀ (c : Cell) (v : List Char), c.fill_raw = some v →
    (v = [] ∨ toUpperS v = "AUTO".data ∨ toUpperS v = "NONE".data) →
    get_cell_fill c = none) ∧
  (∀ (c : Cell) (v u : List Char), c.fill_raw = some v →
    get_cell_fill c = some u → u = toUpperS v) ∧
  (∀ p : Paragraph, p.shd_raw = none → get_para_shading p = none) ∧
  (∀ (p : Paragraph) (v : List Char), p.shd_raw = some v →
    (v = [] ∨ toUpperS v = "AUTO".data ∨ toUpperS v = "NONE".data) →
    get_para_shading p = none) ∧
  (∀ (p : Paragraph) (v u : List Char), p.shd_raw = some v →
    get_para_shading p = some u → u = toUpperS v) ∧
  (∀ r : Run, r.color_raw = none → get_run_color r = none) ∧
  (∀ (r : Run) (v : List Char), r.color_raw = some v →
    (v = [] ∨ toUpperS v = "AUTO".data) → get_run_color r = none) ∧
  (∀ (r : Run) (v u : List Char), r.color_raw = some v →
    get_run_color r = some u → u = toUpperS v) ∧
  (∀ (r : Run) (v : List Char), r.color_raw = some v →
    toUpperS v = "NONE".data → get_run_color r = some "NONE".data) := by
  refine ⟨?_, ?_, ?_, ?_, ?_, ?_, ?_, ?_, ?_, ?_⟩
  · intro c h; simp only [get_cell_fill, h]
  · intro c v h hv; simp only [get_cell_fill, h]; rw [if_pos hv]
  · intro c v u h hu
    simp only [get_cell_fill, h] at hu
    split at hu
    · exact absurd hu (by simp)
    · exact (Option.some.inj hu).symm
  · intro p h; simp only [get_para_shading, h]
  · intro p v h hv; simp only [get_para_shading, h]; rw [if_pos hv]
  · intro p v u h hu
    simp only [get_para_shading, h] at hu
    split at hu
    · exact absurd hu (by simp)
    · exact (Option.some.inj hu).symm
  · intro r h; simp only [get_run_color, h]
  · intro r v h hv; simp only [get_run_color, h]; rw [if_pos hv]
  · intro r v u h hu
    simp only [get_run_color, h] at hu
    split at hu
    · exact absurd hu (by simp)
    · exact (Option.some.inj hu).symm
  · intro r v h hv
    simp only [get_run_color, h]
    rw [if_neg, hv]
    rintro (h1 | h2)
    · subst h1; simp [toUpperS] at hv
    · rw [hv] at h2; exact absurd h2 (by decide)

/-- Claim C4 witness: the amended extractor behavior evaluated on concrete
inputs. -/
theorem claim4_witness :
  get_cell_fill ⟨[], none⟩ = none ∧
  get_cell_fill ⟨[], some "auto".data⟩ = none ∧
  get_cell_fill ⟨[], some "1e4d8c".data⟩ = some "1E4D8C".data ∧
  get_para_shading ⟨[], [], some "NoNe".data⟩ = none ∧
  get_run_color runNoneColor = some "NONE".data := by
  refine ⟨?_, ?_, ?_, ?_, ?_⟩
  · exact claim4_extractors_amended.1 ⟨[], none⟩ rfl
  · exact claim4_extractors_amended.2.1 ⟨[], some "auto".data⟩ "auto".data rfl
      (by decide)
  · have h := claim4_extractors_amended.2.2.1 ⟨[], some "1e4d8c".data⟩
      "1e4d8c".data "1E4D8C".data rfl
    rcases hres : get_cell_fill ⟨[], some "1e4d8c".data⟩ with _ | u
    · exact absurd hres (by decide)
    · rw [show u = "1E4D8C".data from by
        have := claim4_extractors_amended.2.2.1 ⟨[], some "1e4d8c".data⟩
          "1e4d8c".data u rfl hres
        rw [this]; decide]
  · exact claim4_extractors_amended.2.2.2.2.1 ⟨[], [], some "NoNe".data⟩
      "NoNe".data rfl (Or.inr (by decide))
  · exact claim4_extractors_amended.2.2.2.2.2.2.2.2.2 runNoneColor "none".data
      rfl (by decide)

/-- Claim C3 counterexample: on a takeaway table whose first row is blank,
the sole rendered item is numbered `2` (its source row position), not `1`
(its render position) — dropped rows do leave gaps. -/
theorem claim3_counterexample :
  table_to_html tblGap ≠ some (claimTakeawayHtml tblGap.rows) ∧
  table_to_html tblGap =
    some "<div class=\"takeaway-box\"><div class=\"takeaway-item\"><span class=\"takeaway-num\">2</span><span class=\"takeaway-text\">Keep it simple</span></div></div>".data := by
  constructor
  · decide
  · decide

theorem takeawayRows_eq (l : List Row) (i : Nat) (h : ∀ r ∈ l, r.cells ≠ []) :
  takeawayRows i l = some (mapIdx specTakeawayItemAt i l) := by
  induction l generalizing i with
  | nil => simp [takeawayRows, mapIdx]
  | cons r rs ih =>
    have hr : r.cells ≠ [] := h r (by simp)
    obtain ⟨c, cs, hc⟩ : ∃ c cs, r.cells = c :: cs := by
      cases hcells : r.cells with
      | nil => exact absurd hcells hr
      | cons c cs => exact ⟨c, cs, rfl⟩
    simp only [takeawayRows, takeawayRowHtml, hc, mapIdx, specTakeawayItemAt]
    rw [ih (i + 1) (fun x hx => h x (by simp [hx]))]

/-- Claim C3 (amended): takeaway items are numbered by 1-based source row
position, not render position: the item from source row index `i` displays
`i + 1`, so rows with a blank first cell are dropped but leave gaps in the
displayed numbers.  The leading digits-dot-whitespace pattern is stripped
before the number is attached, and the spec's single-row scenario (fill
`FEF9EC`, text "1.  Keep it simple" → item numbered 1, text
"Keep it simple") does hold. -/
theorem claim3_takeaway_numbering_amended :
  table_to_html tblTakeaway1 =
    some "<div class=\"takeaway-box\"><div class=\"takeaway-item\"><span class=\"takeaway-num\">1</span><span class=\"takeaway-text\">Keep it simple</span></div></div>".data ∧
  (∀ t : Table, classify_table t = some "takeaway-box".data →
    (∀ r ∈ t.rows, r.cells ≠ []) →
    table_to_html t =
      some ("<div class=\"takeaway-box\">".data
        ++ (mapIdx specTakeawayItemAt 0 t.rows).flatten ++ "</div>".data)) := by
  constructor
  · decide
  · intro t hcl hrows
    simp only [table_to_html, hcl]
    rw [takeawayRows_eq t.rows 0 hrows]
    simp

/-- Claim C3 witness: the amended numbering statement evaluated on the
single-row scenario table. -/
theorem claim3_witness :
  table_to_html tblTakeaway1 =
    some ("<div class=\"takeaway-box\">".data
      ++ (mapIdx specTakeawayItemAt 0 tblTakeaway1.rows).flatten
      ++ "</div>".data) :=
  claim3_takeaway_numbering_amended.2 tblTakeaway1 (by decide) (by decide)

/-- Claim C6: a non-empty run renders as its escaped text, wrapped by bold
markup when the bold flag is set (innermost), then italic markup, then a
colored span for a present non-suppressed color (outermost); empty-text runs
contribute zero characters; and the spec's bold+italic+`2E86C1` scenario
renders with exactly that nesting. -/
theorem claim6_run_nesting :
  (∀ r : Run, r.text = [] → renderRun r = []) ∧
  (∀ r : Run, r.text ≠ [] →
    renderRun r =
      specColorWrap r (specItalicWrap r.italic (specBoldWrap r.bold
        (escapeHtml r.text)))) ∧
  (∀ (rs : List Run) (r : Run) (st : List Char) (sh : Option (List Char)),
    r.text = [] →
    runs_to_html ⟨r :: rs, st, sh⟩ = runs_to_html ⟨rs, st, sh⟩) ∧
  renderRun runKeyPoint =
    "<span style=\"color:var(--blue)\"><em><strong>Key point</strong></em></span>".data := by
  refine ⟨?_, ?_, ?_, by decide⟩
  · intro r h
    simp [renderRun, h, escapeHtml]
  · intro r h
    have h2 : ¬escapeHtml r.text = [] := fun hh => h (escapeHtml_eq_nil.mp hh)
    simp [renderRun, specColorWrap, specItalicWrap, specBoldWrap, h2]
  · intro rs r st sh h
    have hre : renderRun r = [] := by simp [renderRun, h, escapeHtml]
    simp [runs_to_html, hre]

/-- Claim C6 witness: the nesting statement evaluated on concrete runs. -/
theorem claim6_witness :
  renderRun ⟨[], false, false, none⟩ = [] ∧
  renderRun runKeyPoint =
    specColorWrap runKeyPoint (specItalicWrap runKeyPoint.italic
      (specBoldWrap runKeyPoint.bold (escapeHtml runKeyPoint.text))) ∧
  runs_to_html ⟨⟨[], false, false, none⟩ :: [], [], none⟩ =
    runs_to_html ⟨[], [], none⟩ :=
  ⟨claim6_run_nesting.1 ⟨[], false, false, none⟩ rfl,
   claim6_run_nesting.2.1 runKeyPoint (by decide),
   claim6_run_nesting.2.2.1 [] ⟨[], false, false, none⟩ [] none rfl⟩

theorem isLiFrag_h1 (x : List Char) : isLiFrag ("<h1>".data ++ x) = false := rfl

theorem isLiFrag_h2 (x : List Char) : isLiFrag ("<h2>".data ++ x) = false := rfl

theorem isLiFrag_h3 (x : List Char) : isLiFrag ("<h3>".data ++ x) = false := rfl

theorem isLiFrag_p (x : List Char) : isLiFrag ("<p>".data ++ x) = false := rfl

theorem isLiFrag_div (x : List Char) : isLiFrag ('<' :: 'd' :: x) = false := rfl

theorem isLiFrag_li (x : List Char) : isLiFrag ("<li>".data ++ x) = true := by
  simp [isLiFrag, List.isPrefixOf]

/-- Exhaustive description of the paragraph renderer's possible outputs. -/
theorem para_to_html_cases (p : Paragraph) (s : List Char)
    (h : para_to_html p = some s) :
    pyStrip p.text ≠ [] ∧
    ((p.style = "Heading 1".data ∧ s = "<h1>".data ++ innerOf p ++ "</h1>".data) ∨
     (p.style = "Heading 2".data ∧ s = "<h2>".data ++ innerOf p ++ "</h2>".data) ∨
     (p.style = "Heading 3".data ∧ s = "<h3>".data ++ innerOf p ++ "</h3>".data) ∨
     (p.style = "List Paragraph".data ∧
       s = "<li>".data ++ innerOf p ++ "</li>".data) ∨
     (p.style ≠ "List Paragraph".data ∧ ∃ fl,
       s = "<div class=\"shaded-para ".data
         ++ colorClassGet (toUpperS fl) "fill-navy".data ++ "\">".data
         ++ innerOf p ++ "</div>".data) ∨
     (p.style ≠ "List Paragraph".data ∧
       s = "<p>".data ++ innerOf p ++ "</p>".data)) := by
  by_cases hne : pyStrip p.text = []
  · simp [para_to_html, hne] at h
  · refine ⟨hne, ?_⟩
    simp only [para_to_html, hne, if_neg, if_false] at h
    rw [show (if runs_to_html p = [] then escapeHtml (pyStrip p.text)
        else runs_to_html p) = innerOf p from rfl] at h
    split_ifs at h with h1 h2 h3 h4
    · exact Or.inl ⟨h1, (Option.some.inj h).symm⟩
    · exact Or.inr (Or.inl ⟨h2, (Option.some.inj h).symm⟩)
    · exact Or.inr (Or.inr (Or.inl ⟨h3, (Option.some.inj h).symm⟩))
    · exact Or.inr (Or.inr (Or.inr (Or.inl ⟨h4, (Option.some.inj h).symm⟩)))
    · rcases hsh : get_para_shading p with _ | fl
      · simp only [hsh] at h
        exact Or.inr (Or.inr (Or.inr (Or.inr (Or.inr
          ⟨h4, (Option.some.inj h).symm⟩))))
      · simp only [hsh] at h
        by_cases h5 : toUpperS fl ∈ STRONG_FILLS
        · rw [if_pos h5] at h
          exact Or.inr (Or.inr (Or.inr (Or.inr (Or.inl
            ⟨h4, _, (Option.some.inj h).symm⟩))))
        · rw [if_neg h5] at h
          exact Or.inr (Or.inr (Or.inr (Or.inr (Or.inr
            ⟨h4, (Option.some.inj h).symm⟩))))

theorem cons₂_ne_of_ne {a b c d : Char} {x y : List Char} (h : b ≠ d) :
    a :: b :: x ≠ c :: d :: y := by
  intro heq
  injection heq with _ h2
  injection h2 with h3 _
  exact h h3

/-- A paragraph fragment is never a bare list marker. -/
theorem para_frag_ne_markers (p : Paragraph) (s : List Char)
    (h : para_to_html p = some s) :
    s ≠ "<ul>".data ∧ s ≠ "</ul>".data := by
  obtain ⟨-, hcase⟩ := para_to_html_cases p s h
  rcases hcase with ⟨-, rfl⟩ | ⟨-, rfl⟩ | ⟨-, rfl⟩ | ⟨-, rfl⟩ | ⟨-, css, rfl⟩ |
    ⟨-, rfl⟩ <;>
  exact ⟨cons₂_ne_of_ne (by decide), cons₂_ne_of_ne (by decide)⟩

/-- Every table fragment starts with `<d` (all role templates open with
`<div`). -/
theorem table_frag_shape (t : Table) (s : List Char)
    (h : table_to_html t = some s) : ∃ rest, s = '<' :: 'd' :: rest := by
  unfold table_to_html at h
  repeat' split at h
  all_goals first
    | (obtain rfl := (Option.some.inj h).symm; exact ⟨_, rfl⟩)
    | (obtain rfl := (Option.some.inj h).symm; split <;> exact ⟨_, rfl⟩)
    | exact absurd h (by simp)

/-- A table fragment is never a list-item fragment nor a bare list marker. -/
theorem table_frag_ne_markers (t : Table) (s : List Char)
    (h : table_to_html t = some s) :
    isLiFrag s = false ∧ s ≠ "<ul>".data ∧ s ≠ "</ul>".data := by
  obtain ⟨rest, rfl⟩ := table_frag_shape t s h
  exact ⟨isLiFrag_div rest, cons₂_ne_of_ne (by decide),
    cons₂_ne_of_ne (by decide)⟩

/-- Claim C9: the paragraph renderer yields exactly one outcome, decided in
order: nothing for blank text; else a heading for the three heading styles;
else a list item for `List Paragraph`; else a shaded block for a strong
shading color; else a plain paragraph.  Style precedes shading, so a heading-
or list-styled paragraph renders by style regardless of its shading. -/
theorem claim9_paragraph_decision (p : Paragraph) :
  (pyStrip p.text = [] → para_to_html p = none) ∧
  (pyStrip p.text ≠ [] →
    (p.style = "Heading 1".data →
      para_to_html p = some ("<h1>".data ++ innerOf p ++ "</h1>".data)) ∧
    (p.style = "Heading 2".data →
      para_to_html p = some ("<h2>".data ++ innerOf p ++ "</h2>".data)) ∧
    (p.style = "Heading 3".data →
      para_to_html p = some ("<h3>".data ++ innerOf p ++ "</h3>".data)) ∧
    (p.style = "List Paragraph".data →
      para_to_html p = some ("<li>".data ++ innerOf p ++ "</li>".data)) ∧
    (p.style ∉ ["Heading 1".data, "Heading 2".data, "Heading 3".data,
        "List Paragraph".data] →
      (∀ fl, get_para_shading p = some fl → toUpperS fl ∈ STRONG_FILLS →
        para_to_html p =
          some ("<div class=\"shaded-para ".data
            ++ colorClassGet (toUpperS fl) "fill-navy".data ++ "\">".data
            ++ innerOf p ++ "</div>".data)) ∧
      ((∀ fl, get_para_shading p = some fl → toUpperS fl ∉ STRONG_FILLS) →
        para_to_html p = some ("<p>".data ++ innerOf p ++ "</p>".data)))) := by
  constructor
  · intro h
    simp [para_to_html, h]
  · intro hne
    refine ⟨?_, ?_, ?_, ?_, ?_⟩
    · intro hs; simp [para_to_html, innerOf, hne, hs]
    · intro hs; simp [para_to_html, innerOf, hne, hs]
    · intro hs; simp [para_to_html, innerOf, hne, hs]
    · intro hs; simp [para_to_html, innerOf, hne, hs]
    · intro hnost
      have h1 : p.style ≠ "Heading 1".data := fun h => hnost (by simp [h])
      have h2 : p.style ≠ "Heading 2".data := fun h => hnost (by simp [h])
      have h3 : p.style ≠ "Heading 3".data := fun h => hnost (by simp [h])
      have h4 : p.style ≠ "List Paragraph".data := fun h => hnost (by simp [h])
      constructor
      · intro fl hfl hstrong
        simp [para_to_html, innerOf, hne, h1, h2, h3, h4, hfl, hstrong]
      · intro hnostrong
        cases hsh : get_para_shading p with
        | none => simp [para_to_html, innerOf, hne, h1, h2, h3, h4, hsh]
        | some fl =>
          have hw := hnostrong fl hsh
          simp [para_to_html, innerOf, hne, h1, h2, h3, h4, hsh, hw]

/-- Claim C9 witness: the decision order evaluated on concrete paragraphs. -/
theorem claim9_witness :
  para_to_html (mkPlainPara []) = none ∧
  para_to_html (mkLiPara "a".data) =
    some ("<li>".data ++ innerOf (mkLiPara "a".data) ++ "</li>".data) ∧
  para_to_html (mkPlainPara "d".data) =
    some ("<p>".data ++ innerOf (mkPlainPara "d".data) ++ "</p>".data) :=
  ⟨(claim9_paragraph_decision (mkPlainPara [])).1 (by decide),
   (((claim9_paragraph_decision (mkLiPara "a".data)).2 (by decide)).2.2.2.1
     (by decide)),
   ((((claim9_paragraph_decision (mkPlainPara "d".data)).2
       (by decide)).2.2.2.2 (by decide)).2 (fun fl h => nomatch h))⟩

/-- Claim C10: a paragraph's fragment begins with `<li>` exactly when its
style is `List Paragraph` and its trimmed text is non-empty, so the walker's
prefix test classifies every paragraph fragment correctly. -/
theorem claim10_li_prefix_iff (p : Paragraph) :
  (∃ s, para_to_html p = some s ∧ isLiFrag s = true) ↔
  (p.style = "List Paragraph".data ∧ pyStrip p.text ≠ []) := by
  constructor
  · rintro ⟨s, hs, hli⟩
    obtain ⟨hne, hcase⟩ := para_to_html_cases p s hs
    rcases hcase with ⟨hst, rfl⟩ | ⟨hst, rfl⟩ | ⟨hst, rfl⟩ | ⟨hst, rfl⟩ |
      ⟨hst, css, rfl⟩ | ⟨hst, rfl⟩
    · exact Bool.noConfusion hli
    · exact Bool.noConfusion hli
    · exact Bool.noConfusion hli
    · exact ⟨hst, hne⟩
    · exact Bool.noConfusion hli
    · exact Bool.noConfusion hli
  · rintro ⟨hstyle, hne⟩
    refine ⟨"<li>".data ++ innerOf p ++ "</li>".data, ?_, isLiFrag_li _⟩
    simp [para_to_html, innerOf, hne, hstyle]

/-- The walker computes exactly the spec-side grouping of the per-block
outcomes, in both of its states. -/
theorem walkAux_eq_refGroup (blocks : List Block) :
    walkAux blocks false = refGroup (blocks.map outcomeOf) ∧
    walkAux blocks true =
      (refGroup ((blocks.map outcomeOf).dropWhile isLiOutcome)).map
        (fun parts =>
          liTexts ((blocks.map outcomeOf).takeWhile isLiOutcome)
            ++ "</ul>".data :: parts) := by
  induction blocks with
  | nil =>
    constructor
    · simp [walkAux, refGroup]
    · simp [walkAux, refGroup, liTexts]
  | cons b rest ih =>
    obtain ⟨ih0, ih1⟩ := ih
    cases b with
    | para p =>
      cases hp : para_to_html p with
      | none =>
        have ho : outcomeOf (Block.para p) = Outcome.skip := by
          simp [outcomeOf, hp]
        constructor
        · simp only [walkAux, hp, List.map_cons, ho, refGroup]
          simpa using ih0
        · simp only [walkAux, hp, List.map_cons, ho]
          rw [ih0]
          cases hr : refGroup ((rest.map outcomeOf).dropWhile isLiOutcome) <;>
          cases hr2 : refGroup (rest.map outcomeOf) <;>
            simp [refGroup, isLiOutcome, liTexts, List.takeWhile_cons,
              List.dropWhile_cons, hr, hr2]
      | some s =>
        by_cases hli : isLiFrag s
        · have ho : outcomeOf (Block.para p) = Outcome.li s := by
            simp [outcomeOf, hp, hli]
          constructor
          · simp only [walkAux, hp, List.map_cons, ho, hli]
            rw [ih1]
            cases hr : refGroup ((rest.map outcomeOf).dropWhile isLiOutcome) <;>
              simp [refGroup, isLiOutcome, liTexts, liText, List.takeWhile_cons,
                List.dropWhile_cons, hr, hli]
          · simp only [walkAux, hp, List.map_cons, ho, hli]
            rw [ih1]
            cases hr : refGroup ((rest.map outcomeOf).dropWhile isLiOutcome) <;>
              simp [refGroup, isLiOutcome, liTexts, liText, List.takeWhile_cons,
                List.dropWhile_cons, hr, hli]
        · have ho : outcomeOf (Block.para p) = Outcome.other s := by
            simp [outcomeOf, hp, hli]
          constructor
          · simp only [walkAux, hp, List.map_cons, ho, hli]
            rw [ih0]
            cases hr : refGroup (rest.map outcomeOf) <;>
              simp [refGroup, isLiOutcome, liTexts, hr, hli]
          · simp only [walkAux, hp, List.map_cons, ho, hli]
            rw [ih0]
            cases hr : refGroup (rest.map outcomeOf) <;>
              simp [refGroup, isLiOutcome, liTexts, List.takeWhile_cons,
                List.dropWhile_cons, hr, hli]
    | tbl t =>
      cases ht : table_to_html t with
      | none =>
        have ho : outcomeOf (Block.tbl t) = Outcome.err := by
          simp [outcomeOf, ht]
        constructor
        · simp [walkAux, ht, ho, refGroup]
        · simp [walkAux, ht, ho, refGroup, isLiOutcome, List.takeWhile_cons,
            List.dropWhile_cons]
      | some s =>
        have ho : outcomeOf (Block.tbl t) = Outcome.other s := by
          simp [outcomeOf, ht]
        constructor
        · simp only [walkAux, ht, List.map_cons, ho]
          rw [ih0]
          cases hr : refGroup (rest.map outcomeOf) <;>
            simp [refGroup, isLiOutcome, liTexts, hr]
        · simp only [walkAux, ht, List.map_cons, ho]
          rw [ih0]
          cases hr : refGroup (rest.map outcomeOf) <;>
            simp [refGroup, isLiOutcome, liTexts, List.takeWhile_cons,
              List.dropWhile_cons, hr]

/-- The spec-side grouping always yields a well-formed part list, provided
other-fragments are never markers or list items, and li-fragments are list
items. -/
theorem refGroup_grouped (os : List Outcome) :
    (∀ s, Outcome.other s ∈ os →
      isLiFrag s = false ∧ s ≠ "<ul>".data ∧ s ≠ "</ul>".data) →
    (∀ s, Outcome.li s ∈ os → isLiFrag s = true) →
    ∀ parts, refGroup os = some parts → Grouped parts := by
  induction os using refGroup.induct with
  | case1 =>
    intro _ _ parts h
    simp only [refGroup] at h
    exact (Option.some.inj h) ▸ Grouped.nil
  | case2 rest =>
    intro _ _ parts h
    simp [refGroup] at h
  | case3 rest ih =>
    intro hother hli parts h
    simp only [refGroup] at h
    exact ih (fun s hs => hother s (List.mem_cons_of_mem _ hs))
      (fun s hs => hli s (List.mem_cons_of_mem _ hs)) parts h
  | case4 s rest ih =>
    intro hother hli parts h
    simp only [refGroup] at h
    cases hr : refGroup rest with
    | none => rw [hr] at h; simp at h
    | some v =>
      rw [hr] at h
      obtain rfl : s :: v = parts := Option.some.inj h
      obtain ⟨hf1, hf2, hf3⟩ := hother s (List.mem_cons_self _ _)
      exact Grouped.other s v hf1 hf2 hf3
        (ih (fun x hx => hother x (List.mem_cons_of_mem _ hx))
          (fun x hx => hli x (List.mem_cons_of_mem _ hx)) v hr)
  | case5 s rest ih =>
    intro hother hli parts h
    simp only [refGroup] at h
    cases hr : refGroup (rest.dropWhile isLiOutcome) with
    | none => rw [hr] at h; simp at h
    | some v =>
      rw [hr] at h
      obtain rfl :
          "<ul>".data :: s :: (liTexts (rest.takeWhile isLiOutcome)
            ++ "</ul>".data :: v) = parts := Option.some.inj h
      have hgroup : Grouped ("<ul>".data
          :: (s :: liTexts (rest.takeWhile isLiOutcome))
          ++ "</ul>".data :: v) := by
        refine Grouped.group _ _ (by simp) ?_ ?_
        · intro x hx
          rcases List.mem_cons.mp hx with rfl | hx2
          · exact hli x (List.mem_cons_self _ _)
          · obtain ⟨o, ho, rfl⟩ := List.mem_map.mp hx2
            have hlo : isLiOutcome o = true := List.mem_takeWhile_imp ho
            have hmem : o ∈ rest :=
              (List.takeWhile_sublist isLiOutcome).mem ho
            cases o with
            | li s2 =>
              exact hli s2 (List.mem_cons_of_mem _ hmem)
            | other s2 => exact Bool.noConfusion hlo
            | skip => exact Bool.noConfusion hlo
            | err => exact Bool.noConfusion hlo
        · refine ih (fun x hx => hother x ?_) (fun x hx => hli x ?_) v hr
          · exact List.mem_cons_of_mem _
              ((List.dropWhile_sublist isLiOutcome).mem hx)
          · exact List.mem_cons_of_mem _
              ((List.dropWhile_sublist isLiOutcome).mem hx)
      exact hgroup

/-- A well-formed part list has balanced list markers. -/
theorem grouped_count (parts : List (List Char)) (h : Grouped parts) :
    parts.count "<ul>".data = parts.count "</ul>".data := by
  induction h with
  | nil => rfl
  | other s rest h1 h2 h3 _ ih =>
    simp [List.count_cons, ih, beq_iff_eq, h2, h3]
  | group items rest hne hall _ ih =>
    have h1 : "<ul>".data ∉ items := by
      intro hm
      have hx := hall _ hm
      rw [show isLiFrag "<ul>".data = false from rfl] at hx
      exact Bool.noConfusion hx
    have h2 : "</ul>".data ∉ items := by
      intro hm
      have hx := hall _ hm
      rw [show isLiFrag "</ul>".data = false from rfl] at hx
      exact Bool.noConfusion hx
    simp [List.count_cons, List.count_append, beq_iff_eq, ih,
      List.count_eq_zero.mpr h1, List.count_eq_zero.mpr h2]

/-- Claim C1: for every block sequence the walker's part list equals the
spec-side grouping: every maximal run of consecutive list-item paragraphs is
wrapped in exactly one list container, blank paragraphs and non-list blocks
are never absorbed into a list, and whenever the walk succeeds the counts of
`<ul>` and `</ul>` markers are equal. -/
theorem claim1_walker_list_containers :
  (∀ blocks : List Block,
     doc_to_html_body blocks = refGroup (blocks.map outcomeOf)) ∧
  (∀ (blocks : List Block) (parts : List (List Char)),
     doc_to_html_body blocks = some parts →
     parts.count "<ul>".data = parts.count "</ul>".data ∧ Grouped parts) := by
  have hmain : ∀ blocks : List Block,
      doc_to_html_body blocks = refGroup (blocks.map outcomeOf) :=
    fun blocks => (walkAux_eq_refGroup blocks).1
  refine ⟨hmain, ?_⟩
  intro blocks parts h
  rw [hmain blocks] at h
  have hg : Grouped parts := by
    refine refGroup_grouped (blocks.map outcomeOf) ?_ ?_ parts h
    · intro s hs
      obtain ⟨b, hb, hob⟩ := List.mem_map.mp hs
      cases b with
      | para p =>
        cases hp : para_to_html p with
        | none =>
          rw [show outcomeOf (Block.para p) = Outcome.skip from
            by simp [outcomeOf, hp]] at hob
          exact Outcome.noConfusion hob
        | some s2 =>
          by_cases hli : isLiFrag s2
          · rw [show outcomeOf (Block.para p) = Outcome.li s2 from
              by simp [outcomeOf, hp, hli]] at hob
            exact Outcome.noConfusion hob
          · rw [show outcomeOf (Block.para p) = Outcome.other s2 from
              by simp [outcomeOf, hp, hli]] at hob
            obtain rfl : s2 = s := by injection hob
            exact ⟨by simpa using hli, (para_frag_ne_markers p _ hp).1,
              (para_frag_ne_markers p _ hp).2⟩
      | tbl t =>
        cases ht : table_to_html t with
        | none =>
          rw [show outcomeOf (Block.tbl t) = Outcome.err from
            by simp [outcomeOf, ht]] at hob
          exact Outcome.noConfusion hob
        | some s2 =>
          rw [show outcomeOf (Block.tbl t) = Outcome.other s2 from
            by simp [outcomeOf, ht]] at hob
          obtain rfl : s2 = s := by injection hob
          exact table_frag_ne_markers t _ ht
    · intro s hs
      obtain ⟨b, hb, hob⟩ := List.mem_map.mp hs
      cases b with
      | para p =>
        cases hp : para_to_html p with
        | none =>
          rw [show outcomeOf (Block.para p) = Outcome.skip from
            by simp [outcomeOf, hp]] at hob
          exact Outcome.noConfusion hob
        | some s2 =>
          by_cases hli : isLiFrag s2
          · rw [show outcomeOf (Block.para p) = Outcome.li s2 from
              by simp [outcomeOf, hp, hli]] at hob
            obtain rfl : s2 = s := by injection hob
            exact hli
          · rw [show outcomeOf (Block.para p) = Outcome.other s2 from
              by simp [outcomeOf, hp, hli]] at hob
            exact Outcome.noConfusion hob
      | tbl t =>
        cases ht : table_to_html t with
        | none =>
          rw [show outcomeOf (Block.tbl t) = Outcome.err from
            by simp [outcomeOf, ht]] at hob
          exact Outcome.noConfusion hob
        | some s2 =>
          rw [show outcomeOf (Block.tbl t) = Outcome.other s2 from
            by simp [outcomeOf, ht]] at hob
          exact Outcome.noConfusion hob
  exact ⟨grouped_count parts hg, hg⟩

/-- Claim C1 witness: the walker on three list paragraphs followed by a
plain paragraph. -/
theorem claim1_witness :
  doc_to_html_body demoBlocks = some demoParts ∧
  demoParts.count "<ul>".data = demoParts.count "</ul>".data ∧
  Grouped demoParts := by
  have h : doc_to_html_body demoBlocks = some demoParts := by decide
  have h2 := claim1_walker_list_containers.2 demoBlocks demoParts h
  exact ⟨h, h2.1, h2.2⟩

/-- The classifier succeeds whenever every row has at least one cell. -/
theorem classify_isSome (t : Table) (h : ∀ r ∈ t.rows, r.cells ≠ []) :
    (classify_table t).isSome = true := by
  cases ht : t.rows with
  | nil => simp [classify_table, ht]
  | cons r0 rs =>
    have hr0 : r0.cells ≠ [] := h r0 (ht ▸ List.mem_cons_self _ _)
    cases hc : r0.cells with
    | nil => exact absurd hc hr0
    | cons c0 cs =>
      cases hf : get_cell_fill c0 <;> simp [classify_table, ht, hc, hf]

/-- The two-column row loop succeeds when every row has at least two cells. -/
theorem twoColRows_isSome (l : List Row) (i : Nat)
    (h : ∀ r ∈ l, 2 ≤ r.cells.length) : (twoColRows i l).isSome = true := by
  induction l generalizing i with
  | nil => simp [twoColRows]
  | cons r rs ih =>
    have h2 : 2 ≤ r.cells.length := h r (List.mem_cons_self _ _)
    obtain ⟨c0, c1, cs, hc⟩ : ∃ c0 c1 cs, r.cells = c0 :: c1 :: cs := by
      cases hcc : r.cells with
      | nil => rw [hcc] at h2; simp at h2
      | cons a t1 =>
        cases t1 with
        | nil => rw [hcc] at h2; simp at h2
        | cons b t2 => exact ⟨a, b, t2, rfl⟩
    have hrec := ih (i + 1) (fun x hx => h x (List.mem_cons_of_mem _ hx))
    cases hr : twoColRows (i + 1) rs with
    | none => rw [hr] at hrec; simp at hrec
    | some v => simp [twoColRows, twoColRowHtml, hc, hr]

/-- Claim C2 counterexample: the classifier and renderers index positionally
and are not defensive — on a 1×2-classified table whose only row has one
cell, the renderer's second-cell access fails, and on a table whose first row
has no cells the classifier's own first-cell access fails. -/
theorem claim2_counterexample :
  classify_table tblShortRow = some "school-name-bar".data ∧
  table_to_html tblShortRow = none ∧
  classify_table tblEmptyRow = none := by
  refine ⟨by decide, by decide, by decide⟩

/-- Claim C2 (amended): when every row carries at least two cells (so every
positionally indexed cell exists), the classifier and every role's renderer
return a result; the original claim fails on shorter rows, where the
positional indexing raises instead of degrading. -/
theorem claim2_short_rows_amended (t : Table)
    (h : ∀ r ∈ t.rows, 2 ≤ r.cells.length) :
    (classify_table t).isSome = true ∧ (table_to_html t).isSome = true := by
  have hcells : ∀ r ∈ t.rows, r.cells ≠ [] := by
    intro r hr hnil
    have h2 := h r hr
    rw [hnil] at h2
    simp at h2
  refine ⟨classify_isSome t hcells, ?_⟩
  obtain ⟨cols, rows⟩ := t
  cases rows with
  | nil => simp [table_to_html, classify_table, scoreRows]
  | cons r0 rs =>
    have h20 : 2 ≤ r0.cells.length := h r0 (List.mem_cons_self _ _)
    obtain ⟨c0, c1, cs, hc⟩ : ∃ c0 c1 cs, r0.cells = c0 :: c1 :: cs := by
      cases hcc : r0.cells with
      | nil => rw [hcc] at h20; simp at h20
      | cons a t1 =>
        cases t1 with
        | nil => rw [hcc] at h20; simp at h20
        | cons b t2 => exact ⟨a, b, t2, rfl⟩
    cases hcl : classify_table ⟨cols, r0 :: rs⟩ with
    | none =>
      have hi := classify_isSome ⟨cols, r0 :: rs⟩ hcells
      rw [hcl] at hi
      simp at hi
    | some role =>
      simp only [table_to_html, hcl]
      by_cases h1 : role = "school-name-bar".data
      · rw [if_pos h1]; simp [hc]
      rw [if_neg h1]
      by_cases h2 : role = "section-label".data
      · rw [if_pos h2]; simp [hc]
      rw [if_neg h2]
      by_cases h3 : role = "got-right-header".data
      · rw [if_pos h3]; simp
      rw [if_neg h3]
      by_cases h4 : role = "two-col-content".data
      · rw [if_pos h4]
        have hs := twoColRows_isSome (r0 :: rs) 0 h
        cases hrec : twoColRows 0 (r0 :: rs) with
        | none => rw [hrec] at hs; simp at hs
        | some v => simp [hrec]
      rw [if_neg h4]
      by_cases h5 : role = "takeaway-box".data
      · rw [if_pos h5]
        rw [takeawayRows_eq (r0 :: rs) 0 hcells]
        simp
      rw [if_neg h5]
      by_cases h6 : role = "info-grid".data
      · rw [if_pos h6]; simp
      rw [if_neg h6]
      by_cases h7 : role = "principle-header".data
      · rw [if_pos h7]; simp [hc]
      rw [if_neg h7]
      by_cases h8 : role = "score-table".data
      · rw [if_pos h8]; simp
      rw [if_neg h8]
      by_cases h9 : role = "score-legend".data
      · rw [if_pos h9]; simp
      rw [if_neg h9]
      simp

/-- Claim C2 witness: the amended statement evaluated on the school-name-bar
scenario table, whose only row has two cells. -/
theorem claim2_witness :
  (classify_table tblSchoolBar).isSome = true ∧
  (table_to_html tblSchoolBar).isSome = true :=
  claim2_short_rows_amended tblSchoolBar (by decide)

/-- Claim C5 witness: the classifier statements evaluated on concrete
tables. -/
theorem claim5_witness :
  classify_table ⟨3, []⟩ = some "generic".data ∧
  classify_table ⟨1, [⟨[⟨["x".data], none⟩]⟩]⟩ = some "generic".data ∧
  classify_table tblAltNavy =
    some (firstMatchRole specRules tblAltNavy.rows.length tblAltNavy.cols
      (toUpperS "1B2A4A".data)) :=
  ⟨claim5_classifier_priority.1 ⟨3, []⟩ rfl,
   claim5_classifier_priority.2.1 ⟨1, [⟨[⟨["x".data], none⟩]⟩]⟩
     ⟨[⟨["x".data], none⟩]⟩ [] ⟨["x".data], none⟩ [] rfl rfl (by decide),
   claim5_classifier_priority.2.2.1 tblAltNavy
     ⟨[⟨["Label".data], some "1B2A4A".data⟩]⟩ []
     ⟨["Label".data], some "1B2A4A".data⟩ [] "1B2A4A".data rfl rfl (by decide)⟩

theorem noMark_nil : noMark [] := by simp [noMark]

theorem noMark_append {a b : List Char} (ha : noMark a) (hb : noMark b) :
    noMark (a ++ b) := by
  intro c hc
  rcases List.mem_append.mp hc with h | h
  · exact ha c h
  · exact hb c h

theorem safeFrag_nil : SafeFrag [] := SafeFrag.safe [] noMark_nil

theorem safeFrag_flatten {l : List (List Char)} (h : ∀ x ∈ l, SafeFrag x) :
    SafeFrag l.flatten := by
  induction l with
  | nil => exact safeFrag_nil
  | cons a t ih =>
    exact SafeFrag.app _ _ (h a (List.mem_cons_self _ _))
      (ih (fun x hx => h x (List.mem_cons_of_mem _ hx)))

theorem mem_intersperse_cases {α : Type} (sep : α) :
    ∀ (l : List α) (x : α), x ∈ l.intersperse sep → x = sep ∨ x ∈ l := by
  intro l
  induction l with
  | nil => intro x hx; simp [List.intersperse] at hx
  | cons a t ih =>
    intro x hx
    cases t with
    | nil =>
      simp [List.intersperse] at hx
      exact Or.inr (by simp [hx])
    | cons b t2 =>
      rw [List.intersperse_cons₂] at hx
      rcases List.mem_cons.mp hx with rfl | hx2
      · exact Or.inr (List.mem_cons_self _ _)
      · rcases List.mem_cons.mp hx2 with rfl | hx3
        · exact Or.inl rfl
        · rcases ih x hx3 with h | h
          · exact Or.inl h
          · exact Or.inr (List.mem_cons_of_mem _ h)

theorem safeFrag_intercalate {sep : List Char} {l : List (List Char)}
    (hsep : SafeFrag sep) (h : ∀ x ∈ l, SafeFrag x) :
    SafeFrag (List.intercalate sep l) := by
  rw [List.intercalate]
  refine safeFrag_flatten ?_
  intro x hx
  rcases mem_intersperse_cases sep l x hx with rfl | hm
  · exact hsep
  · exact h x hm

theorem pyUpperChar_safe {c : Char} (h : c ≠ '<' ∧ c ≠ '&' ∧ c ≠ '"') :
    pyUpperChar c ≠ '<' ∧ pyUpperChar c ≠ '&' ∧ pyUpperChar c ≠ '"' := by
  unfold pyUpperChar
  split <;> first | decide | exact h

theorem pyLowerChar_safe {c : Char} (h : c ≠ '<' ∧ c ≠ '&' ∧ c ≠ '"') :
    pyLowerChar c ≠ '<' ∧ pyLowerChar c ≠ '&' ∧ pyLowerChar c ≠ '"' := by
  unfold pyLowerChar
  split <;> first | decide | exact h

theorem noMark_toUpperS {s : List Char} (h : noMark s) : noMark (toUpperS s) := by
  intro c hc
  obtain ⟨x, hx, rfl⟩ := List.mem_map.mp hc
  exact pyUpperChar_safe (h x hx)

theorem noMark_toLowerS {s : List Char} (h : noMark s) : noMark (toLowerS s) := by
  intro c hc
  obtain ⟨x, hx, rfl⟩ := List.mem_map.mp hc
  exact pyLowerChar_safe (h x hx)

theorem digitChar_safe : ∀ m, m < 10 →
    Nat.digitChar m ≠ '<' ∧ Nat.digitChar m ≠ '&' ∧ Nat.digitChar m ≠ '"' := by
  decide

theorem natCharsAux_safe : ∀ fuel n, noMark (natCharsAux fuel n) := by
  intro fuel
  induction fuel with
  | zero => intro n; simp [natCharsAux, noMark]
  | succ f ih =>
    intro n
    unfold natCharsAux
    split_ifs with h
    · intro c hc
      rw [List.mem_singleton] at hc
      subst hc
      exact digitChar_safe n h
    · intro c hc
      rcases List.mem_append.mp hc with h2 | h2
      · exact ih (n / 10) c h2
      · rw [List.mem_singleton] at h2
        subst h2
        exact digitChar_safe (n % 10) (Nat.mod_lt _ (by omega))

theorem natChars_safe (n : Nat) : noMark (natChars n) := natCharsAux_safe _ n

/-- Escaped output never contains a raw `<` or `"`. -/
theorem escapeHtml_no_raw (t : List Char) :
    ∀ c ∈ escapeHtml t, c ≠ '<' ∧ c ≠ '"' := by
  intro c hc
  rw [escapeHtml, List.mem_flatten] at hc
  obtain ⟨l, hl, hcl⟩ := hc
  obtain ⟨x, _, rfl⟩ := List.mem_map.mp hl
  unfold escapeChar at hcl
  split_ifs at hcl with e1 e2 e3 e4 e5
  · exact (by decide : ∀ y ∈ "&amp;".data, y ≠ '<' ∧ y ≠ '"') c hcl
  · exact (by decide : ∀ y ∈ "&lt;".data, y ≠ '<' ∧ y ≠ '"') c hcl
  · exact (by decide : ∀ y ∈ "&gt;".data, y ≠ '<' ∧ y ≠ '"') c hcl
  · exact (by decide : ∀ y ∈ "&quot;".data, y ≠ '<' ∧ y ≠ '"') c hcl
  · exact (by decide : ∀ y ∈ "&#x27;".data, y ≠ '<' ∧ y ≠ '"') c hcl
  · rw [List.mem_singleton] at hcl
    subst hcl
    exact ⟨e2, e4⟩

theorem ampOkB_escapeChar (c : Char) (r : List Char) :
    ampOkB (escapeChar c ++ r) = ampOkB r := by
  unfold escapeChar
  split_ifs with e1 e2 e3 e4 e5 <;>
    simp [ampOkB, ampEntities, List.isPrefixOf, List.isPrefixOf_nil_left,
      beq_iff_eq, e1]

/-- Every ampersand in escaped output starts one of the five entities. -/
theorem ampOkB_escapeHtml (t : List Char) : ampOkB (escapeHtml t) = true := by
  induction t with
  | nil => rfl
  | cons c t ih =>
    rw [show escapeHtml (c :: t) = escapeChar c ++ escapeHtml t from rfl,
      ampOkB_escapeChar, ih]

theorem lookup_mem_snd {α β : Type} [BEq α] :
    ∀ (l : List (α × β)) (k : α) (v : β),
      List.lookup k l = some v → ∃ a, (a, v) ∈ l := by
  intro l
  induction l with
  | nil => intro k v h; simp [List.lookup] at h
  | cons p t ih =>
    intro k v h
    rw [List.lookup] at h
    split at h
    · obtain rfl := Option.some.inj h
      exact ⟨p.1, List.mem_cons_self _ _⟩
    · obtain ⟨a, ha⟩ := ih k v h
      exact ⟨a, List.mem_cons_of_mem _ ha⟩

instance noMark_decidable (s : List Char) : Decidable (noMark s) := by
  unfold noMark
  infer_instance

theorem COLOR_CLASS_values_noMark : ∀ p ∈ COLOR_CLASS, noMark p.2 := by decide

theorem RUN_COLOR_MAP_values_noMark : ∀ p ∈ RUN_COLOR_MAP, noMark p.2 := by
  decide

theorem noMark_colorClassGet (k d : List Char) (hd : noMark d) :
    noMark (colorClassGet k d) := by
  unfold colorClassGet
  cases hl : List.lookup k COLOR_CLASS with
  | none => exact hd
  | some v =>
    obtain ⟨a, ha⟩ := lookup_mem_snd _ _ _ hl
    exact COLOR_CLASS_values_noMark _ ha

theorem noMark_cssColorOf {c : List Char} (h : noMark c) :
    noMark (cssColorOf c) := by
  unfold cssColorOf
  cases hl : List.lookup c RUN_COLOR_MAP with
  | none =>
    intro x hx
    rcases List.mem_cons.mp hx with rfl | hx2
    · decide
    · obtain ⟨y, hy, rfl⟩ := List.mem_map.mp hx2
      exact pyLowerChar_safe (h y hy)
  | some v =>
    obtain ⟨a, ha⟩ := lookup_mem_snd _ _ _ hl
    exact RUN_COLOR_MAP_values_noMark _ ha

theorem SafeFrag.app3 {a b c : List Char} (h1 : SafeFrag a)
    (h2 : SafeFrag b) (h3 : SafeFrag c) : SafeFrag (a ++ b ++ c) :=
  .app _ _ (.app _ _ h1 h2) h3

theorem SafeFrag.app5 {a b c d e : List Char} (h1 : SafeFrag a)
    (h2 : SafeFrag b) (h3 : SafeFrag c) (h4 : SafeFrag d) (h5 : SafeFrag e) :
    SafeFrag (a ++ b ++ c ++ d ++ e) :=
  .app _ _ (.app _ _ (.app _ _ (.app _ _ h1 h2) h3) h4) h5

theorem SafeFrag.app8 {a b c d e f g h : List Char} (h1 : SafeFrag a)
    (h2 : SafeFrag b) (h3 : SafeFrag c) (h4 : SafeFrag d) (h5 : SafeFrag e)
    (h6 : SafeFrag f) (h7 : SafeFrag g) (h8 : SafeFrag h) :
    SafeFrag (a ++ b ++ c ++ d ++ e ++ f ++ g ++ h) :=
  .app _ _ (.app _ _ (.app _ _ (.app _ _ (.app _ _ (.app _ _ (.app _ _ h1 h2)
    h3) h4) h5) h6) h7) h8

theorem SafeFrag.app9 {a b c d e f g h i : List Char} (h1 : SafeFrag a)
    (h2 : SafeFrag b) (h3 : SafeFrag c) (h4 : SafeFrag d) (h5 : SafeFrag e)
    (h6 : SafeFrag f) (h7 : SafeFrag g) (h8 : SafeFrag h) (h9 : SafeFrag i) :
    SafeFrag (a ++ b ++ c ++ d ++ e ++ f ++ g ++ h ++ i) :=
  .app _ _ (SafeFrag.app8 h1 h2 h3 h4 h5 h6 h7 h8) h9

theorem SafeFrag.app10 {a b c d e f g h i j : List Char} (h1 : SafeFrag a)
    (h2 : SafeFrag b) (h3 : SafeFrag c) (h4 : SafeFrag d) (h5 : SafeFrag e)
    (h6 : SafeFrag f) (h7 : SafeFrag g) (h8 : SafeFrag h) (h9 : SafeFrag i)
    (h10 : SafeFrag j) :
    SafeFrag (a ++ b ++ c ++ d ++ e ++ f ++ g ++ h ++ i ++ j) :=
  .app _ _ (SafeFrag.app9 h1 h2 h3 h4 h5 h6 h7 h8 h9) h10

theorem renderRun_eq_wraps (r : Run) (h : r.text ≠ []) :
    renderRun r =
      specColorWrap r (specItalicWrap r.italic (specBoldWrap r.bold
        (escapeHtml r.text))) := by
  have h2 : ¬escapeHtml r.text = [] := fun hh => h (escapeHtml_eq_nil.mp hh)
  simp [renderRun, specColorWrap, specItalicWrap, specBoldWrap, h2]

theorem get_run_color_noMark {r : Run}
    (hc : ∀ v, r.color_raw = some v → noMark v)
    {color : List Char} (h : get_run_color r = some color) : noMark color := by
  cases hcr : r.color_raw with
  | none => simp [get_run_color, hcr] at h
  | some v =>
    simp only [get_run_color, hcr] at h
    split_ifs at h with hh
    obtain rfl := Option.some.inj h
    exact noMark_toUpperS (hc v hcr)

theorem safeFrag_specBoldWrap (b : Bool) {s : List Char} (hs : SafeFrag s) :
    SafeFrag (specBoldWrap b s) := by
  unfold specBoldWrap
  split_ifs
  · exact .app3 (.tmpl _ (by decide)) hs (.tmpl _ (by decide))
  · exact hs

theorem safeFrag_specItalicWrap (b : Bool) {s : List Char} (hs : SafeFrag s) :
    SafeFrag (specItalicWrap b s) := by
  unfold specItalicWrap
  split_ifs
  · exact .app3 (.tmpl _ (by decide)) hs (.tmpl _ (by decide))
  · exact hs

theorem safeFrag_specColorWrap (r : Run)
    (hc : ∀ v, r.color_raw = some v → noMark v) {s : List Char}
    (hs : SafeFrag s) : SafeFrag (specColorWrap r s) := by
  cases hcol : get_run_color r with
  | none => simp only [specColorWrap, hcol]; exact hs
  | some color =>
    simp only [specColorWrap, hcol]
    split_ifs
    · exact hs
    · exact .app5 (.tmpl _ (by decide))
        (.safe _ (noMark_cssColorOf (get_run_color_noMark hc hcol)))
        (.tmpl _ (by decide)) hs (.tmpl _ (by decide))

theorem safeFrag_renderRun (r : Run)
    (hc : ∀ v, r.color_raw = some v → noMark v) : SafeFrag (renderRun r) := by
  by_cases h : r.text = []
  · have hre : renderRun r = [] := by simp [renderRun, h, escapeHtml]
    rw [hre]
    exact safeFrag_nil
  · rw [renderRun_eq_wraps r h]
    exact safeFrag_specColorWrap r hc
      (safeFrag_specItalicWrap _ (safeFrag_specBoldWrap _ (.esc _)))

theorem safeFrag_runs_to_html (p : Paragraph)
    (hc : ∀ r ∈ p.runs, ∀ v, r.color_raw = some v → noMark v) :
    SafeFrag (runs_to_html p) := by
  unfold runs_to_html
  refine safeFrag_flatten ?_
  intro x hx
  obtain ⟨r, hr, rfl⟩ := List.mem_map.mp hx
  exact safeFrag_renderRun r (hc r hr)

theorem safeFrag_innerOf (p : Paragraph)
    (hc : ∀ r ∈ p.runs, ∀ v, r.color_raw = some v → noMark v) :
    SafeFrag (innerOf p) := by
  unfold innerOf
  split_ifs
  · exact .esc _
  · exact safeFrag_runs_to_html p hc

/-- Every paragraph fragment is safely built, when the run colors carry no
markup characters (colors are metadata, not text content). -/
theorem safeFrag_para_to_html (p : Paragraph) (s : List Char)
    (hc : ∀ r ∈ p.runs, ∀ v, r.color_raw = some v → noMark v)
    (h : para_to_html p = some s) : SafeFrag s := by
  obtain ⟨-, hcase⟩ := para_to_html_cases p s h
  rcases hcase with ⟨-, rfl⟩ | ⟨-, rfl⟩ | ⟨-, rfl⟩ | ⟨-, rfl⟩ | ⟨-, fl, rfl⟩ |
    ⟨-, rfl⟩
  · exact .app3 (.tmpl _ (by decide)) (safeFrag_innerOf p hc)
      (.tmpl _ (by decide))
  · exact .app3 (.tmpl _ (by decide)) (safeFrag_innerOf p hc)
      (.tmpl _ (by decide))
  · exact .app3 (.tmpl _ (by decide)) (safeFrag_innerOf p hc)
      (.tmpl _ (by decide))
  · exact .app3 (.tmpl _ (by decide)) (safeFrag_innerOf p hc)
      (.tmpl _ (by decide))
  · exact .app5 (.tmpl _ (by decide))
      (.safe _ (noMark_colorClassGet _ _ (by decide))) (.tmpl _ (by decide))
      (safeFrag_innerOf p hc) (.tmpl _ (by decide))
  · exact .app3 (.tmpl _ (by decide)) (safeFrag_innerOf p hc)
      (.tmpl _ (by decide))

theorem safeFrag_infoCellHtml (c : Cell) : SafeFrag (infoCellHtml c) := by
  simp only [infoCellHtml]
  refine .app5 (.tmpl _ (by decide))
    (.safe _ (noMark_colorClassGet _ _ (by decide))) (.tmpl _ (by decide))
    (safeFrag_intercalate (.tmpl _ (by decide)) ?_) (.tmpl _ (by decide))
  intro x hx
  obtain ⟨l, hl, rfl⟩ := List.mem_map.mp hx
  exact .esc _

theorem safeFrag_infoRowHtml (r : Row) : SafeFrag (infoRowHtml r) := by
  simp only [infoRowHtml]
  refine .app3 (.tmpl _ (by decide)) (safeFrag_flatten ?_)
    (.tmpl _ (by decide))
  intro x hx
  obtain ⟨c, hcm, rfl⟩ := List.mem_map.mp hx
  exact safeFrag_infoCellHtml c

theorem safeFrag_scoreCellHtml (i : Nat) (c : Cell) :
    SafeFrag (scoreCellHtml i c) := by
  simp only [scoreCellHtml]
  have htag : noMark (if i = 0 then "th".data else "td".data) := by
    split_ifs <;> decide
  exact .app9 (.tmpl _ (by decide)) (.safe _ htag) (.tmpl _ (by decide))
    (.safe _ (noMark_colorClassGet _ _ noMark_nil)) (.tmpl _ (by decide))
    (.esc _) (.tmpl _ (by decide)) (.safe _ htag) (.tmpl _ (by decide))

theorem safeFrag_scoreRowHtml (i : Nat) (r : Row) :
    SafeFrag (scoreRowHtml i r) := by
  simp only [scoreRowHtml]
  refine .app3 (.tmpl _ (by decide)) (safeFrag_flatten ?_)
    (.tmpl _ (by decide))
  intro x hx
  obtain ⟨c, hcm, rfl⟩ := List.mem_map.mp hx
  exact safeFrag_scoreCellHtml i c

theorem safeFrag_scoreRows : ∀ (l : List Row) (i : Nat),
    ∀ x ∈ scoreRows i l, SafeFrag x := by
  intro l
  induction l with
  | nil => intro i x hx; simp [scoreRows] at hx
  | cons r rs ih =>
    intro i x hx
    rcases List.mem_cons.mp hx with rfl | hx2
    · exact safeFrag_scoreRowHtml i r
    · exact ih (i + 1) x hx2

theorem safeFrag_legendCellHtml (c : Cell) : SafeFrag (legendCellHtml c) := by
  simp only [legendCellHtml]
  exact .app5 (.tmpl _ (by decide))
    (.safe _ (noMark_colorClassGet _ _ noMark_nil)) (.tmpl _ (by decide))
    (.esc _) (.tmpl _ (by decide))

theorem safeFrag_twoColRowHtml (i : Nat) (r : Row) (x : List Char)
    (h : twoColRowHtml i r = some x) : SafeFrag x := by
  simp only [twoColRowHtml] at h
  split at h
  · obtain rfl := Option.some.inj h
    rename_i c0 c1 tail heq
    by_cases hne : pyStrip c0.text ≠ [] ∨ pyStrip c1.text ≠ []
    · rw [if_pos hne]
      have hcls : noMark (if i % 2 = 1 then "row-alt".data else []) := by
        split_ifs
        · decide
        · exact noMark_nil
      exact .app10 (.tmpl _ (by decide)) (.safe _ hcls) (.tmpl _ (by decide))
        (.tmpl _ (by decide)) (.esc _) (.tmpl _ (by decide))
        (.tmpl _ (by decide)) (.esc _) (.tmpl _ (by decide))
        (.tmpl _ (by decide))
    · rw [if_neg hne]
      exact safeFrag_nil
  · exact absurd h (by simp)

theorem safeFrag_twoColRows : ∀ (l : List Row) (i : Nat)
    (hs : List (List Char)), twoColRows i l = some hs →
    ∀ x ∈ hs, SafeFrag x := by
  intro l
  induction l with
  | nil =>
    intro i hs h x hx
    simp [twoColRows] at h
    subst h
    simp at hx
  | cons r rs ih =>
    intro i hs h x hx
    simp only [twoColRows] at h
    cases h1 : twoColRowHtml i r with
    | none => rw [h1] at h; simp at h
    | some v =>
      cases h2 : twoColRows (i + 1) rs with
      | none => rw [h1, h2] at h; simp at h
      | some vs =>
        rw [h1, h2] at h
        obtain rfl := Option.some.inj h
        rcases List.mem_cons.mp hx with rfl | hx2
        · exact safeFrag_twoColRowHtml i r x h1
        · exact ih (i + 1) vs h2 x hx2

theorem safeFrag_takeawayItemHtml (i : Nat) (t : List Char) :
    SafeFrag (takeawayItemHtml i t) := by
  simp only [takeawayItemHtml]
  exact .app8 (.tmpl _ (by decide)) (.tmpl _ (by decide))
    (.safe _ (natChars_safe (i + 1))) (.tmpl _ (by decide))
    (.tmpl _ (by decide)) (.esc _) (.tmpl _ (by decide))
    (.tmpl _ (by decide))

theorem safeFrag_takeawayRowHtml (i : Nat) (r : Row) (x : List Char)
    (h : takeawayRowHtml i r = some x) : SafeFrag x := by
  simp only [takeawayRowHtml] at h
  split at h
  · obtain rfl := Option.some.inj h
    split_ifs
    · exact safeFrag_takeawayItemHtml _ _
    · exact safeFrag_nil
  · exact absurd h (by simp)

theorem safeFrag_takeawayRows : ∀ (l : List Row) (i : Nat)
    (hs : List (List Char)), takeawayRows i l = some hs →
    ∀ x ∈ hs, SafeFrag x := by
  intro l
  induction l with
  | nil =>
    intro i hs h x hx
    simp [takeawayRows] at h
    subst h
    simp at hx
  | cons r rs ih =>
    intro i hs h x hx
    simp only [takeawayRows] at h
    cases h1 : takeawayRowHtml i r with
    | none => rw [h1] at h; simp at h
    | some v =>
      cases h2 : takeawayRows (i + 1) rs with
      | none => rw [h1, h2] at h; simp at h
      | some vs =>
        rw [h1, h2] at h
        obtain rfl := Option.some.inj h
        rcases List.mem_cons.mp hx with rfl | hx2
        · exact safeFrag_takeawayRowHtml i r x h1
        · exact ih (i + 1) vs h2 x hx2

/-- Every table fragment is safely built: all cell text is embedded through
the HTML escaper, all other pieces are fixed template literals or
markup-free class/number strings. -/
theorem safeFrag_table_to_html (t : Table) (s : List Char)
    (h : table_to_html t = some s) : SafeFrag s := by
  unfold table_to_html at h
  split at h
  · exact absurd h (by simp)
  rename_i role hrole
  by_cases hr1 : role = "school-name-bar".data
  · rw [if_pos hr1] at h
    repeat' split at h
    all_goals try exact Option.noConfusion h
    obtain rfl := (Option.some.inj h).symm
    exact .app5 (.tmpl _ (by decide)) (.esc _) (.tmpl _ (by decide))
      (.esc _) (.tmpl _ (by decide))
  rw [if_neg hr1] at h
  by_cases hr2 : role = "section-label".data
  · rw [if_pos hr2] at h
    repeat' split at h
    all_goals try exact Option.noConfusion h
    simp only [] at h
    obtain rfl := (Option.some.inj h).symm
    exact .app5 (.tmpl _ (by decide))
      (.safe _ (noMark_colorClassGet _ _ (by decide))) (.tmpl _ (by decide))
      (.esc _) (.tmpl _ (by decide))
  rw [if_neg hr2] at h
  by_cases hr3 : role = "got-right-header".data
  · rw [if_pos hr3] at h
    obtain rfl := (Option.some.inj h).symm
    exact .tmpl _ (by decide)
  rw [if_neg hr3] at h
  by_cases hr4 : role = "two-col-content".data
  · rw [if_pos hr4] at h
    split at h
    · rename_i hs0 htc
      obtain rfl := (Option.some.inj h).symm
      exact .app3 (.tmpl _ (by decide))
        (safeFrag_flatten (safeFrag_twoColRows _ _ _ htc))
        (.tmpl _ (by decide))
    · exact absurd h (by simp)
  rw [if_neg hr4] at h
  by_cases hr5 : role = "takeaway-box".data
  · rw [if_pos hr5] at h
    split at h
    · rename_i hs0 htc
      obtain rfl := (Option.some.inj h).symm
      exact .app3 (.tmpl _ (by decide))
        (safeFrag_flatten (safeFrag_takeawayRows _ _ _ htc))
        (.tmpl _ (by decide))
    · exact absurd h (by simp)
  rw [if_neg hr5] at h
  by_cases hr6 : role = "info-grid".data
  · rw [if_pos hr6] at h
    obtain rfl := (Option.some.inj h).symm
    refine .app3 (.tmpl _ (by decide)) (safeFrag_flatten ?_)
      (.tmpl _ (by decide))
    intro x hx
    obtain ⟨r, hrm, rfl⟩ := List.mem_map.mp hx
    exact safeFrag_infoRowHtml r
  rw [if_neg hr6] at h
  by_cases hr7 : role = "principle-header".data
  · rw [if_pos hr7] at h
    repeat' split at h
    all_goals try exact Option.noConfusion h
    simp only [] at h
    obtain rfl := (Option.some.inj h).symm
    split
    · exact .app5 (.tmpl _ (by decide)) (.esc _) (.tmpl _ (by decide))
        (.esc _) (.tmpl _ (by decide))
    · exact .app3 (.tmpl _ (by decide)) (.esc _) (.tmpl _ (by decide))
  rw [if_neg hr7] at h
  by_cases hr8 : role = "score-table".data
  · rw [if_pos hr8] at h
    obtain rfl := (Option.some.inj h).symm
    exact .app3 (.tmpl _ (by decide))
      (safeFrag_flatten (safeFrag_scoreRows _ 0)) (.tmpl _ (by decide))
  rw [if_neg hr8] at h
  by_cases hr9 : role = "score-legend".data
  · rw [if_pos hr9] at h
    split at h
    · obtain rfl := (Option.some.inj h).symm
      refine .app3 (.tmpl _ (by decide)) (safeFrag_flatten ?_)
        (.tmpl _ (by decide))
      intro x hx
      obtain ⟨c, hcm, rfl⟩ := List.mem_map.mp hx
      exact safeFrag_legendCellHtml c
    · exact absurd h (by simp)
  rw [if_neg hr9] at h
  obtain rfl := (Option.some.inj h).symm
  exact .app3 (.tmpl _ (by decide))
    (safeFrag_flatten (safeFrag_scoreRows _ 0)) (.tmpl _ (by decide))

/-- Claim C7: for any literal text content, the escaper outputs no raw `<`
or `"` and every `&` starts an escape entity; and every fragment a table
role or the paragraph renderer produces is a concatenation of fixed template
literals, markup-free strings, and escaped content — so content never
injects raw markup-significant characters into a fragment. -/
theorem claim7_content_escaping :
  (∀ t : List Char,
     (∀ c ∈ escapeHtml t, c ≠ '<' ∧ c ≠ '"') ∧
     ampOkB (escapeHtml t) = true) ∧
  (∀ (tbl : Table) (s : List Char), table_to_html tbl = some s → SafeFrag s) ∧
  (∀ (p : Paragraph) (s : List Char),
     (∀ r ∈ p.runs, ∀ v, r.color_raw = some v → noMark v) →
     para_to_html p = some s → SafeFrag s) :=
  ⟨fun t => ⟨escapeHtml_no_raw t, ampOkB_escapeHtml t⟩,
   safeFrag_table_to_html,
   fun p s hc h => safeFrag_para_to_html p s hc h⟩

/-- Claim C7 witness: the escaping statement evaluated on concrete content,
a concrete table, and a concrete paragraph whose text contains `<`. -/
theorem claim7_witness :
  (∀ c ∈ escapeHtml "a<b&c\"d".data, c ≠ '<' ∧ c ≠ '"') ∧
  ampOkB (escapeHtml "a<b&c\"d".data) = true ∧
  SafeFrag "<div class=\"school-name-bar\"><span class=\"school-name\">Lincoln High</span><span class=\"school-loc\">Springfield, IL</span></div>".data ∧
  SafeFrag "<p>a&lt;b</p>".data :=
  ⟨(claim7_content_escaping.1 "a<b&c\"d".data).1,
   (claim7_content_escaping.1 "a<b&c\"d".data).2,
   claim7_content_escaping.2.1 tblSchoolBar _ (by decide),
   claim7_content_escaping.2.2 (mkPlainPara "a<b".data) _
     (by
       intro r hr v hv
       simp only [mkPlainPara, List.mem_singleton] at hr
       subst hr
       simp at hv)
     (by decide)⟩

end SparkConvert
